import Mathlib

/-!
# The HTTP client facade `src/components/api.js`

A shallow embedding of the module: the JavaScript values it handles, the
browser key/value store (`localStorage`), the module-level `token` variable,
the two axios interceptors and the endpoint functions, followed by the
properties of the module that are proved about them.

Conventions of the embedding.

* JavaScript strings are Lean strings; a JavaScript number is a binary64
  value, and every number read from text is rounded to the nearest one.
* `localStorage` is an association list from keys to string values, in
  insertion order, which is also the order `Object.keys` enumerates.
* The part of axios that sends a configuration and produces a response or an
  error (the adapter) is a parameter `Transport` of every function that calls
  `api.get`, `api.post`, `api.put` or `api.delete`.
* An `async` function returns a `Reply`: the state afterwards, the request
  configurations handed to the transport, and the settled promise
  (`Except.ok` for fulfilled, `Except.error` for rejected).
-/

namespace Api

/-! ## JavaScript values -/

/-- A JavaScript number: a binary64 value. A finite value is
`m * 2 ^ e`, negated when `neg` is set, with `m < 2 ^ 53` and `e` from -1074
to 971; `m` is at least `2 ^ 52` unless `e` is -1074. -/
inductive JSNumber where
  | nan
  | inf (neg : Bool)
  | fin (neg : Bool) (m : Nat) (e : Int)
  deriving DecidableEq

namespace JSNumber

/-- The number of binary digits of `n` less one (zero for `n < 2`); the
first argument bounds the recursion and `n` itself is enough
(`log2F_eq_log`). -/
def log2F : Nat → Nat → Nat
  | 0, _ => 0
  | f + 1, n => if n < 2 then 0 else log2F f (n / 2) + 1

/-- Whether `2 ^ l ≤ p / q`. -/
def geTwoPow (p q : Nat) (l : Int) : Bool :=
  if 0 ≤ l then decide (q * 2 ^ l.toNat ≤ p) else decide (q ≤ p * 2 ^ (-l).toNat)

/-- The integer nearest to `n / d`, the even one of two equally near. -/
def roundHalfEven (n d : Nat) : Nat :=
  let q := n / d
  let r := n % d
  if 2 * r < d then q
  else if d < 2 * r then q + 1
  else if q % 2 = 0 then q else q + 1

/-- The binary64 value nearest to `p / q` for positive `p` and `q`, ties to
the even significand, infinite when the rounded value reaches `2 ^ 1024`. -/
def roundRatio (neg : Bool) (p q : Nat) : JSNumber :=
  if p = 0 then fin neg 0 (-1074)
  else
    let l : Int := (log2F p p : Int) - (log2F q q : Int)
    let k : Int := if geTwoPow p q l then l else l - 1
    let e : Int := max (k - 52) (-1074)
    let n : Nat :=
      if 0 ≤ e then roundHalfEven p (q * 2 ^ e.toNat)
      else roundHalfEven (p * 2 ^ (-e).toNat) q
    let m : Nat := if n = 2 ^ 53 then 2 ^ 52 else n
    let e1 : Int := if n = 2 ^ 53 then e + 1 else e
    if 971 < e1 then inf neg else fin neg m e1

/-- The binary64 number nearest to a natural number (the number itself up
to `2 ^ 53`). -/
def ofNat (n : Nat) : JSNumber := roundRatio false n 1

/-- The binary64 number nearest to the decimal `mant * 10 ^ exp10`, negated
when `neg` is set: the value of a number written in a text. -/
def ofDecimal (neg : Bool) (mant : Nat) (exp10 : Int) : JSNumber :=
  if 0 ≤ exp10 then roundRatio neg (mant * 10 ^ exp10.toNat) 1
  else roundRatio neg mant (10 ^ (-exp10).toNat)

/-- Whether `10 ^ t ≤ p / q`. -/
def geTenPow (p q : Nat) (t : Int) : Bool :=
  if 0 ≤ t then decide (q * 10 ^ t.toNat ≤ p) else decide (q ≤ p * 10 ^ (-t).toNat)

/-- The decimal exponent of `p / q`: the `t` with `10 ^ t ≤ p / q < 10 ^ (t + 1)`,
found next to the estimate from the binary exponent. -/
def log10Floor (p q : Nat) : Int :=
  let l : Int := (log2F p p : Int) - (log2F q q : Int)
  let est : Int := (l * 30103) / 100000
  if geTenPow p q (est + 1) then est + 1
  else if geTenPow p q est then est
  else if geTenPow p q (est - 1) then est - 1
  else est - 2

/-- The integer part of `p / q` scaled by `10 ^ (-s)`. -/
def scaledFloor (p q : Nat) (s : Int) : Nat :=
  if 0 ≤ s then p / (q * 10 ^ s.toNat) else (p * 10 ^ (-s).toNat) / q

/-- Whether `a * 10 ^ s` is nearer to `p / q` than `b * 10 ^ s`, for
`a * 10 ^ s ≤ p / q ≤ b * 10 ^ s`: it compares `2 * p / q` with
`(a + b) * 10 ^ s`, and on equal distance an even `a` wins. -/
def lowerNearer (p q : Nat) (s : Int) (a b : Nat) : Bool :=
  let num : Nat := if 0 ≤ s then p else p * 10 ^ (-s).toNat
  let den : Nat := if 0 ≤ s then q * 10 ^ s.toNat else q
  if 2 * num < (a + b) * den then true
  else if (a + b) * den < 2 * num then false
  else decide (a % 2 = 0)

/-- The shortest digits of a positive finite number with `k` digits, if
`k` digits are enough: the digit string `s` as a number and the exponent
`n` such that `s * 10 ^ (n - k)` rounds to the number. -/
def digitsWith (m : Nat) (e : Int) (k : Nat) : Option (Nat × Int) :=
  let p : Nat := if 0 ≤ e then m * 2 ^ e.toNat else m
  let q : Nat := if 0 ≤ e then 1 else 2 ^ (-e).toNat
  let t := log10Floor p q
  let s : Int := t + 1 - k
  let lo := scaledFloor p q s
  let hi := lo + 1
  let okLo : Bool := decide (ofDecimal false lo s = fin false m e) && decide (10 ^ (k - 1) ≤ lo)
  let okHi : Bool := decide (ofDecimal false hi s = fin false m e)
  if okLo && okHi then
    (if lowerNearer p q s lo hi then some (lo, t + 1)
     else if hi = 10 ^ k then some (10 ^ (k - 1), t + 2) else some (hi, t + 1))
  else if okLo then some (lo, t + 1)
  else if okHi then (if hi = 10 ^ k then some (10 ^ (k - 1), t + 2) else some (hi, t + 1))
  else none

/-- The shortest digits of a positive finite number: the first of 1 to 17
digits that is enough. -/
def shortest (m : Nat) (e : Int) : Nat × Nat × Int :=
  match (List.range 17).findSome? (fun i =>
      (digitsWith m e (i + 1)).map (fun r => (i + 1, r.1, r.2))) with
  | some r => r
  | none => (1, 0, 0)

/-- The decimal digits of `s` padded on the left with zeros to `k` digits. -/
def digitChars (k s : Nat) : List Char :=
  let ds := Nat.toDigits 10 s
  List.replicate (k - ds.length) '0' ++ ds

/-- The text of a positive finite number from its `k` shortest digits `s`
and decimal exponent `n`, as `Number::toString` lays it out. -/
def layout (k s : Nat) (n : Int) : String :=
  let ds := digitChars k s
  if (k : Int) ≤ n ∧ n ≤ 21 then String.mk (ds ++ List.replicate (n - k).toNat '0')
  else if 0 < n ∧ n ≤ 21 then String.mk (ds.take n.toNat ++ '.' :: ds.drop n.toNat)
  else if -6 < n ∧ n ≤ 0 then String.mk ('0' :: '.' :: List.replicate (-n).toNat '0' ++ ds)
  else
    let ex : String := (if 0 ≤ n - 1 then "e+" else "e-") ++ toString (n - 1).natAbs
    match ds with
    | [d] => String.mk [d] ++ ex
    | d :: r => String.mk (d :: '.' :: r) ++ ex
    | [] => ex

/-- The operation `Number::toString` in radix ten. -/
def toStr : JSNumber → String
  | nan => "NaN"
  | inf neg => if neg then "-Infinity" else "Infinity"
  | fin neg m e =>
    if m = 0 then "0"
    else
      let r := shortest m e
      (if neg then "-" else "") ++ layout r.1 r.2.1 r.2.2

/-- The comparison `x > k` with a natural number `k`. -/
def gtNat (x : JSNumber) (k : Nat) : Bool :=
  match x with
  | nan => false
  | inf neg => !neg
  | fin neg m e =>
    if neg then false
    else if 0 ≤ e then decide (k < m * 2 ^ e.toNat)
    else decide (k * 2 ^ (-e).toNat < m)

/-- The rational value of the finite number `fin neg m e`. -/
def finValue (neg : Bool) (m : Nat) (e : Int) : ℚ :=
  (if neg then -1 else 1) * (m : ℚ) * (2 : ℚ) ^ e

end JSNumber

/-- The JavaScript values that reach the module: primitives, arrays and
plain objects (property lists in insertion order). -/
inductive JSValue where
  | undefined
  | null
  | bool (b : Bool)
  | num (x : JSNumber)
  | str (s : String)
  | arr (xs : List JSValue)
  | obj (fields : List (String × JSValue))

namespace JSValue

mutual
/-- The abstract operation `ToString` (with `ToPrimitive` on arrays and
objects: an array is its elements joined by commas, a plain object is
`[object Object]`). -/
def toStr : JSValue → String
  | undefined => "undefined"
  | null => "null"
  | bool b => if b then "true" else "false"
  | num x => x.toStr
  | str s => s
  | arr xs => joinStr xs
  | obj _ => "[object Object]"
/-- The function `Array.prototype.join(",")`, in which `null` and `undefined`
elements are empty. -/
def joinStr : List JSValue → String
  | [] => ""
  | [x] => elemStr x
  | x :: y :: r => elemStr x ++ "," ++ joinStr (y :: r)
/-- The text of one array element inside `join`. -/
def elemStr : JSValue → String
  | undefined => ""
  | null => ""
  | bool b => if b then "true" else "false"
  | num x => x.toStr
  | str s => s
  | arr xs => joinStr xs
  | obj _ => "[object Object]"
end

/-- The abstract operation `ToBoolean`. -/
def truthy : JSValue → Bool
  | undefined => false
  | null => false
  | bool b => b
  | num JSNumber.nan => false
  | num (JSNumber.inf _) => true
  | num (JSNumber.fin _ m _) => decide (m ≠ 0)
  | str s => decide (s ≠ "")
  | arr _ => true
  | obj _ => true

/-- The operator `a || b`. -/
def or (a b : JSValue) : JSValue := if a.truthy then a else b

/-- The comparison `v === s` against a string. -/
def strictEqStr (v : JSValue) (s : String) : Bool :=
  match v with
  | str x => decide (x = s)
  | _ => false

/-- Own property lookup in a property list. -/
def lookup (k : String) : List (String × JSValue) → Option JSValue
  | [] => none
  | (k', v) :: r => if k' = k then some v else lookup k r

/-- Define or overwrite a property, keeping the position of an existing one. -/
def define (k : String) (v : JSValue) : List (String × JSValue) → List (String × JSValue)
  | [] => [(k, v)]
  | (k', v') :: r => if k' = k then (k, v) :: r else (k', v') :: define k v r

end JSValue

open JSValue

/-- The body of a request: nothing, a value sent as JSON, or a `FormData`
with its appended fields. -/
inductive Body where
  | none
  | json (v : JSValue)
  | form (fields : List (String × JSValue))

/-- An axios request configuration; `params` is `undefined` when the call
gives none. -/
structure Config where
  method : String
  url : String
  params : JSValue
  data : Body
  headers : List (String × String)

/-- An axios response (the envelope around the parsed body `data`). -/
structure Response where
  data : JSValue
  status : Nat
  statusText : String
  headers : List (String × String)
  config : Config

/-- The errors a call can throw or a promise can be rejected with. The
`response` of an axios error is absent when no reply arrived. -/
inductive JSError where
  | typeError
  | syntaxError
  | invalidCharacterError
  | axiosError (message : String) (response : Option Response)

/-! ## Platform functions used by `isTokenValid` -/

/-- The function `String.prototype.split` with a one-character separator. -/
def split (sep : Char) : List Char → List (List Char)
  | [] => [[]]
  | c :: cs =>
    if c = sep then [] :: split sep cs
    else match split sep cs with
      | h :: t => (c :: h) :: t
      | [] => [[c]]

/-- ASCII whitespace, which `atob` removes first. -/
def isAsciiSpace (c : Char) : Bool :=
  c.toNat = 9 ∨ c.toNat = 10 ∨ c.toNat = 12 ∨ c.toNat = 13 ∨ c.toNat = 32

/-- The value of a character of the base64 alphabet. -/
def b64Val (c : Char) : Option Nat :=
  let n := c.toNat
  if 65 ≤ n ∧ n ≤ 90 then some (n - 65)
  else if 97 ≤ n ∧ n ≤ 122 then some (n - 97 + 26)
  else if 48 ≤ n ∧ n ≤ 57 then some (n - 48 + 52)
  else if n = 43 then some 62
  else if n = 47 then some 63
  else none

/-- Remove one or two trailing `=` when the length is a multiple of four. -/
def stripPadding (cs : List Char) : List Char :=
  if cs.length % 4 = 0 then
    match cs.reverse with
    | '=' :: '=' :: t => t.reverse
    | '=' :: t => t.reverse
    | _ => cs
  else cs

/-- The sextets of a text, `none` when a character is outside the alphabet. -/
def sextets : List Char → Option (List Nat)
  | [] => some []
  | c :: cs =>
    match b64Val c, sextets cs with
    | some v, some vs => some (v :: vs)
    | _, _ => none

/-- Sextets to bytes: four sextets give three bytes, a final group of three
gives two and a final group of two gives one. -/
def decodeSextets : List Nat → List Nat
  | a :: b :: c :: d :: r =>
    let n := a * 262144 + b * 4096 + c * 64 + d
    (n / 65536) :: (n / 256 % 256) :: (n % 256) :: decodeSextets r
  | [a, b, c] => let n := (a * 4096 + b * 64 + c) / 4; [n / 256, n % 256]
  | [a, b] => [(a * 64 + b) / 16]
  | _ => []

/-- The function `atob`: forgiving base64 decoding; the result has one
character per byte. -/
def atob (data : String) : Except JSError String :=
  let cs := stripPadding (data.data.filter (fun c => !isAsciiSpace c))
  if cs.length % 4 = 1 then .error .invalidCharacterError
  else match sextets cs with
    | none => .error .invalidCharacterError
    | some vs => .ok (String.mk ((decodeSextets vs).map Char.ofNat))

/-! ### `JSON.parse` -/

/-- JSON whitespace. -/
def skipWs : List Char → List Char
  | [] => []
  | c :: cs =>
    if c.toNat = 32 ∨ c.toNat = 9 ∨ c.toNat = 10 ∨ c.toNat = 13 then skipWs cs else c :: cs

/-- Whether the character is a decimal digit. -/
def isDigit (c : Char) : Bool := 48 ≤ c.toNat ∧ c.toNat ≤ 57

/-- The leading decimal digits of a text and what follows them. -/
def takeDigits : List Char → List Char × List Char
  | [] => ([], [])
  | c :: cs =>
    if isDigit c then ((takeDigits cs).1.cons c, (takeDigits cs).2) else ([], c :: cs)

/-- The number written by a list of decimal digits. -/
def digitsVal (ds : List Char) : Nat := ds.foldl (fun a c => a * 10 + (c.toNat - 48)) 0

/-- The value of a hexadecimal digit. -/
def hexVal (c : Char) : Option Nat :=
  let n := c.toNat
  if 48 ≤ n ∧ n ≤ 57 then some (n - 48)
  else if 65 ≤ n ∧ n ≤ 70 then some (n - 55)
  else if 97 ≤ n ∧ n ≤ 102 then some (n - 87)
  else none

/-- An optional sign at the head of a text: whether it is `-`, and the text
after the sign. A leading `+` counts as a sign only when `plus` is set. -/
def takeSign (plus : Bool) (cs : List Char) : Bool × List Char :=
  match cs with
  | [] => (false, [])
  | c :: r =>
    if c = '-' then (true, r)
    else if c = '+' ∧ plus = true then (false, r)
    else (false, c :: r)

/-- An optional exponent part `e`, `e+` or `e-` followed by digits: the signed
exponent and the rest, `none` when the digits are missing. Without an `e`
the exponent is zero and nothing is consumed. -/
def parseExponent (cs : List Char) : Option (Int × List Char) :=
  match cs with
  | [] => some (0, [])
  | e :: r =>
    if e = 'e' ∨ e = 'E' then
      let sg := takeSign true r
      let ds := takeDigits sg.2
      if ds.1 = [] then none
      else some (if sg.1 then -(digitsVal ds.1 : Int) else (digitsVal ds.1 : Int), ds.2)
    else some (0, e :: r)

/-- The integer part of a JSON number: a single `0`, or digits not starting
with `0`. -/
def takeIntPart (cs : List Char) : List Char × List Char :=
  match cs with
  | [] => ([], [])
  | c :: r => if c = '0' then (['0'], r) else takeDigits (c :: r)

/-- An optional fraction `.` with digits: the digits and the rest, `none`
when the digits are missing. -/
def takeFraction (cs : List Char) : Option (List Char × List Char) :=
  match cs with
  | [] => some ([], [])
  | c :: r =>
    if c = '.' then (if (takeDigits r).1 = [] then none else some (takeDigits r))
    else some ([], c :: r)

/-- A JSON number at the head of a text, rounded to binary64. -/
def parseNumber (cs : List Char) : Option (JSNumber × List Char) :=
  let sg := takeSign false cs
  let ip := takeIntPart sg.2
  if ip.1 = [] then none
  else
    match takeFraction ip.2 with
    | none => none
    | some fr =>
      match parseExponent fr.2 with
      | none => none
      | some ex =>
        some (JSNumber.ofDecimal sg.1 (digitsVal (ip.1 ++ fr.1)) (ex.1 - fr.1.length), ex.2)

/-- UTF-16 code units to characters: a surrogate pair is one character, a
lone surrogate becomes U+FFFD. -/
def utf16Decode : List Nat → List Char
  | [] => []
  | [a] => [if 0xD800 ≤ a ∧ a ≤ 0xDFFF then Char.ofNat 0xFFFD else Char.ofNat a]
  | a :: b :: r =>
    if 0xD800 ≤ a ∧ a ≤ 0xDBFF ∧ 0xDC00 ≤ b ∧ b ≤ 0xDFFF then
      Char.ofNat (0x10000 + (a - 0xD800) * 1024 + (b - 0xDC00)) :: utf16Decode r
    else if 0xD800 ≤ a ∧ a ≤ 0xDFFF then Char.ofNat 0xFFFD :: utf16Decode (b :: r)
    else Char.ofNat a :: utf16Decode (b :: r)

/-- The code units of one character. -/
def utf16Units (c : Char) : List Nat :=
  if c.toNat < 0x10000 then [c.toNat]
  else [0xD800 + (c.toNat - 0x10000) / 1024, 0xDC00 + (c.toNat - 0x10000) % 1024]

/-- The body of a JSON string after its opening quote: the code units read
so far (reversed) are in `acc`; the result is the string and the text after
the closing quote. -/
def parseString : List Char → List Nat → Option (String × List Char)
  | [], _ => none
  | c :: r, acc =>
    if c = '"' then some (String.mk (utf16Decode acc.reverse), r)
    else if c = '\\' then
      match r with
      | 'u' :: h1 :: h2 :: h3 :: h4 :: r' =>
        match hexVal h1, hexVal h2, hexVal h3, hexVal h4 with
        | some a, some b, some c', some d =>
          parseString r' ((a * 4096 + b * 256 + c' * 16 + d) :: acc)
        | _, _, _, _ => none
      | e :: r' =>
        if e = '"' then parseString r' (34 :: acc)
        else if e = '\\' then parseString r' (92 :: acc)
        else if e = '/' then parseString r' (47 :: acc)
        else if e = 'b' then parseString r' (8 :: acc)
        else if e = 'f' then parseString r' (12 :: acc)
        else if e = 'n' then parseString r' (10 :: acc)
        else if e = 'r' then parseString r' (13 :: acc)
        else if e = 't' then parseString r' (9 :: acc)
        else none
      | [] => none
    else if c.toNat < 32 then none
    else parseString r ((utf16Units c).reverse ++ acc)

/-- A JSON string, number or literal name whose first character is `c`,
with the text after it. -/
def parseScalar (c : Char) (r : List Char) : Option (JSValue × List Char) :=
  if c = '"' then
    match parseString r [] with
    | some (s, r2) => some (JSValue.str s, r2)
    | none => none
  else if c = '-' ∨ isDigit c then
    match parseNumber (c :: r) with
    | some (d, r2) => some (JSValue.num d, r2)
    | none => none
  else
    match c :: r with
    | 't' :: 'r' :: 'u' :: 'e' :: r2 => some (JSValue.bool true, r2)
    | 'f' :: 'a' :: 'l' :: 's' :: 'e' :: r2 => some (JSValue.bool false, r2)
    | 'n' :: 'u' :: 'l' :: 'l' :: r2 => some (JSValue.null, r2)
    | _ => none

mutual
/-- A JSON value at the head of a text, with the text after it. The first
argument bounds the number of nested calls. -/
def parseValue : Nat → List Char → Option (JSValue × List Char)
  | 0, _ => none
  | f + 1, cs =>
    match skipWs cs with
    | [] => none
    | c :: r =>
      if c = '{' then
        match skipWs r with
        | '}' :: r2 => some (JSValue.obj [], r2)
        | _ => parseMembers f r []
      else if c = '[' then
        match skipWs r with
        | ']' :: r2 => some (JSValue.arr [], r2)
        | _ => parseElements f r []
      else parseScalar c r
/-- The elements of a JSON array after `[` or a comma; `acc` holds the
elements read so far, reversed. -/
def parseElements : Nat → List Char → List JSValue → Option (JSValue × List Char)
  | 0, _, _ => none
  | f + 1, cs, acc =>
    match parseValue f cs with
    | none => none
    | some (v, r) =>
      match skipWs r with
      | ',' :: r2 => parseElements f r2 (v :: acc)
      | ']' :: r2 => some (JSValue.arr (v :: acc).reverse, r2)
      | _ => none
/-- The members of a JSON object after `{` or a comma; a repeated key
overwrites the earlier value. -/
def parseMembers : Nat → List Char → List (String × JSValue) → Option (JSValue × List Char)
  | 0, _, _ => none
  | f + 1, cs, acc =>
    match skipWs cs with
    | '"' :: r =>
      match parseString r [] with
      | none => none
      | some (k, r1) =>
        match skipWs r1 with
        | ':' :: r2 =>
          match parseValue f r2 with
          | none => none
          | some (v, r3) =>
            match skipWs r3 with
            | ',' :: r4 => parseMembers f r4 (JSValue.define k v acc)
            | '}' :: r4 => some (JSValue.obj (JSValue.define k v acc), r4)
            | _ => none
        | _ => none
    | _ => none
end

/-- The function `JSON.parse(text)` without a reviver. Twice the length of
the text bounds the nesting: any bound that reads a value from the text gives
the result of this one (`parseValue_bound_enough`). -/
def jsonParse (text : String) : Except JSError JSValue :=
  match parseValue (2 * text.data.length + 2) text.data with
  | some (v, r) => if skipWs r = [] then .ok v else .error .syntaxError
  | none => .error .syntaxError

/-- What a successful parse with some bound says about every larger bound:
the rest is no longer than the text, and the same result is found with any
bound above twice the number of characters consumed. -/
def FuelInvariant (f : Nat) : Prop :=
  (∀ (cs : List Char) (v : JSValue) (r : List Char), parseValue f cs = some (v, r) →
    r.length ≤ cs.length ∧
    ∀ g : Nat, 2 * (cs.length - r.length) + 1 ≤ g → parseValue g cs = some (v, r)) ∧
  (∀ (cs : List Char) (acc : List JSValue) (v : JSValue) (r : List Char),
    parseElements f cs acc = some (v, r) →
    r.length + 1 ≤ cs.length ∧
    ∀ g : Nat, 2 * (cs.length - r.length) ≤ g → parseElements g cs acc = some (v, r)) ∧
  (∀ (cs : List Char) (acc : List (String × JSValue)) (v : JSValue) (r : List Char),
    parseMembers f cs acc = some (v, r) →
    r.length + 1 ≤ cs.length ∧
    ∀ g : Nat, 2 * (cs.length - r.length) ≤ g → parseMembers g cs acc = some (v, r))

/-! ### Property access and numeric comparison -/

/-- The index written by a canonical array-index property name. -/
def arrayIndex (k : String) : Option Nat :=
  match k.data with
  | [] => none
  | ['0'] => some 0
  | c :: cs => if c ≠ '0' ∧ (c :: cs).all isDigit then some (digitsVal (c :: cs)) else none

/-- The property read `v.k`: the own properties of an object, `length` and
the elements of an array, `length` and the code units of a string. The module
reads no property inherited from a prototype. Reading from `undefined` or
`null` throws. -/
def getMember (v : JSValue) (k : String) : Except JSError JSValue :=
  match v with
  | JSValue.undefined => .error .typeError
  | JSValue.null => .error .typeError
  | JSValue.obj fs => .ok ((JSValue.lookup k fs).getD JSValue.undefined)
  | JSValue.arr xs =>
    if k = "length" then .ok (JSValue.num (JSNumber.ofNat xs.length))
    else match arrayIndex k with
      | some i => .ok ((xs.get? i).getD JSValue.undefined)
      | none => .ok JSValue.undefined
  | JSValue.str s =>
    let units := (s.data.map utf16Units).flatten
    if k = "length" then .ok (JSValue.num (JSNumber.ofNat units.length))
    else match arrayIndex k with
      | some i =>
        match units.get? i with
        | some u => .ok (JSValue.str (String.mk (utf16Decode [u])))
        | none => .ok JSValue.undefined
      | none => .ok JSValue.undefined
  | _ => .ok JSValue.undefined

/-- White space and line terminators that `ToNumber` trims from a string. -/
def isStrWhiteSpace (c : Char) : Bool :=
  let n := c.toNat
  (9 ≤ n ∧ n ≤ 13) ∨ n = 32 ∨ n = 0xA0 ∨ n = 0x1680 ∨ (0x2000 ≤ n ∧ n ≤ 0x200A) ∨
    n = 0x2028 ∨ n = 0x2029 ∨ n = 0x202F ∨ n = 0x205F ∨ n = 0x3000 ∨ n = 0xFEFF

/-- Drop leading white space. -/
def trimStart : List Char → List Char
  | [] => []
  | c :: cs => if isStrWhiteSpace c then trimStart cs else c :: cs

/-- The digits of a text in the given radix, `none` when the text is empty or
has another character. -/
def radixVal (radix : Nat) (cs : List Char) : Option Nat :=
  if cs = [] then none
  else cs.foldl (fun acc c =>
    match acc, hexVal c with
    | some a, some v => if v < radix then some (a * radix + v) else none
    | _, _ => none) (some 0)

/-- An unsigned decimal literal that is the whole text: digits with an
optional fraction and exponent, or a fraction alone. -/
def parseStrDecimal (cs : List Char) : Option (Nat × Int) :=
  let ip := takeDigits cs
  let fr : List Char × List Char :=
    match ip.2 with
    | '.' :: r => takeDigits r
    | _ => ([], ip.2)
  if ip.1 = [] ∧ fr.1 = [] then none
  else match parseExponent fr.2 with
    | some (e, []) => some (digitsVal (ip.1 ++ fr.1), e - fr.1.length)
    | _ => none

/-- The abstract operation `StringToNumber`: the number a string denotes,
`NaN` when it denotes none. -/
def stringToNumber (s : String) : JSNumber :=
  let cs := (trimStart (trimStart s.data).reverse).reverse
  match cs with
  | [] => JSNumber.ofNat 0
  | '0' :: 'x' :: r | '0' :: 'X' :: r =>
    match radixVal 16 r with | some n => JSNumber.ofNat n | none => .nan
  | '0' :: 'o' :: r | '0' :: 'O' :: r =>
    match radixVal 8 r with | some n => JSNumber.ofNat n | none => .nan
  | '0' :: 'b' :: r | '0' :: 'B' :: r =>
    match radixVal 2 r with | some n => JSNumber.ofNat n | none => .nan
  | _ =>
    let sg := takeSign true cs
    if sg.2 = "Infinity".data then .inf sg.1
    else match parseStrDecimal sg.2 with
      | some d => JSNumber.ofDecimal sg.1 d.1 d.2
      | none => .nan

/-- The abstract operation `ToNumber` (after `ToPrimitive` on arrays and objects). -/
def toNumber (v : JSValue) : JSNumber :=
  match v with
  | JSValue.undefined => .nan
  | JSValue.null => JSNumber.ofNat 0
  | JSValue.bool b => JSNumber.ofNat (if b then 1 else 0)
  | JSValue.num x => x
  | JSValue.str s => stringToNumber s
  | JSValue.arr xs => stringToNumber (JSValue.arr xs).toStr
  | JSValue.obj fs => stringToNumber (JSValue.obj fs).toStr

/-- The comparison `v > k` against a natural number: `ToNumber v > k`, false
when `ToNumber v` is `NaN`. -/
def gtNat (v : JSValue) (k : Nat) : Bool :=
  (toNumber v).gtNat k

/-! ## The browser store and the module state -/

/-- The entries of `localStorage`, in insertion order. -/
abbrev Storage := List (String × String)

namespace Storage

/-- The call `localStorage.getItem(k)`; `none` is the `null` of an absent key. -/
def getItem (st : Storage) (k : String) : Option String :=
  match st with
  | [] => none
  | (k', v) :: r => if k' = k then some v else getItem r k

/-- The call `localStorage.setItem(k, v)` with `v` already converted to a string. -/
def setItem (st : Storage) (k v : String) : Storage :=
  match st with
  | [] => [(k, v)]
  | (k', v') :: r => if k' = k then (k, v) :: r else (k', v') :: setItem r k v

/-- The call `localStorage.removeItem(k)`. -/
def removeItem (st : Storage) (k : String) : Storage :=
  st.filter (fun e => decide (e.1 ≠ k))

/-- The call `Object.keys(localStorage)`. -/
def keys (st : Storage) : List String := st.map Prod.fst

end Storage

/-- What the module reads and writes: `localStorage`, the module variable
`token` and `window.location.href`. -/
structure State where
  storage : Storage
  token : JSValue
  href : String

/-- The value of a `getItem` result as a JavaScript value. -/
def optStr : Option String → JSValue
  | none => JSValue.null
  | some s => JSValue.str s

/-- Module load, line 11: `let token = localStorage.getItem('token') || ''`. -/
def moduleLoad (storage : Storage) (href : String) : State :=
  { storage := storage
    token := JSValue.or (optStr (storage.getItem "token")) (JSValue.str "")
    href := href }

/-- Source function `setToken`, lines 13-17. -/
def setToken (s : State) (t : JSValue) : State :=
  let s1 := { s with token := JSValue.or t (JSValue.str "") }
  if t.truthy then { s1 with storage := s1.storage.setItem "token" t.toStr }
  else { s1 with storage := s1.storage.removeItem "token" }

/-- The element `token.split('.')[1]`, `undefined` when there is no dot. -/
def segment (tok : String) : JSValue :=
  match (split '.' tok.data).get? 1 with
  | some seg => JSValue.str (String.mk seg)
  | none => JSValue.undefined

/-- The body of the `try` block of `isTokenValid`, lines 24-25, at the time
`nowMs` that `Date.now()` returns. -/
def isTokenValidTry (tok : String) (nowMs : Nat) : Except JSError Bool :=
  match atob (segment tok).toStr with
  | .error e => .error e
  | .ok text =>
    match jsonParse text with
    | .error e => .error e
    | .ok payload =>
      match getMember payload "exp" with
      | .error e => .error e
      | .ok exp => .ok (gtNat exp (nowMs / 1000))

/-- Source function `isTokenValid`, lines 19-29, at the time `nowMs` that `Date.now()`
returns: `Except.ok b` is a normal return of `b`, `Except.error` a throw. -/
def isTokenValid (s : State) (nowMs : Nat) : Except JSError Bool :=
  let token := optStr (s.storage.getItem "token")
  if !token.truthy then .ok false
  else
    match isTokenValidTry token.toStr nowMs with
    | .ok b => .ok b
    | .error _ => .ok false

/-- Source function `clearAuthData`, lines 31-36. -/
def clearAuthData (s : State) : State :=
  let s1 := { s with storage := s.storage.removeItem "token" }
  let s2 := { s1 with storage := s1.storage.removeItem "username" }
  let s3 := { s2 with storage := s2.storage.removeItem "roles" }
  setToken s3 (JSValue.str "")

/-! ## The interceptors -/

/-- The assignment `headers[k] = v`. -/
def setHeader (hs : List (String × String)) (k v : String) : List (String × String) :=
  match hs with
  | [] => [(k, v)]
  | (k', v') :: r => if k' = k then (k, v) :: r else (k', v') :: setHeader r k v

/-- The header `k` of a header list. -/
def getHeader (hs : List (String × String)) (k : String) : Option String :=
  match hs with
  | [] => none
  | (k', v) :: r => if k' = k then some v else getHeader r k

/-- The request interceptor, lines 38-41. -/
def requestInterceptor (s : State) (cfg : Config) : Config :=
  if s.token.truthy then
    { cfg with headers := setHeader cfg.headers "Authorization" ("Bearer " ++ s.token.toStr) }
  else cfg

/-- The value `error.response?.status`, `none` for `undefined`. -/
def errorStatus : JSError → Option Nat
  | .axiosError _ (some r) => some r.status
  | _ => none

/-- The handler of a successful response, line 44. -/
def responseFulfilled (r : Response) : Response := r

/-- The handler of a failed response, lines 45-51: the state afterwards and
the rejection it returns. -/
def responseRejected (s : State) (error : JSError) : State × Except JSError Response :=
  if errorStatus error = some 401 ∨ errorStatus error = some 403 then
    ({ clearAuthData s with href := "/cms/login" }, .error error)
  else (s, .error error)

/-! ## Requests -/

/-- The adapter of axios: what sending a configuration produces. A reply
whose status axios rejects arrives as an `axiosError` with that response. -/
abbrev Transport := Config → Except JSError Response

/-- The outcome of an `async` function: the state afterwards, the
configurations handed to the transport, and the settled promise. -/
structure Reply (α : Type) where
  state : State
  sent : List Config
  result : Except JSError α

/-- A request through the instance `api`: the request interceptor, the
transport, then the response interceptors. -/
def apiRequest (tr : Transport) (s : State) (cfg : Config) : Reply Response :=
  let cfg1 := requestInterceptor s cfg
  match tr cfg1 with
  | .ok r => { state := s, sent := [cfg1], result := .ok (responseFulfilled r) }
  | .error e =>
    { state := (responseRejected s e).1, sent := [cfg1], result := (responseRejected s e).2 }

/-- The call `api.get(url, { params })`. -/
def apiGet (tr : Transport) (s : State) (url : String) (params : JSValue) : Reply Response :=
  apiRequest tr s { method := "get", url := url, params := params, data := .none, headers := [] }

/-- The call `api.delete(url, { data })`. -/
def apiDelete (tr : Transport) (s : State) (url : String) (data : Body) : Reply Response :=
  apiRequest tr s
    { method := "delete", url := url, params := JSValue.undefined, data := data, headers := [] }

/-- The call `api.post(url, data)`. -/
def apiPost (tr : Transport) (s : State) (url : String) (data : Body) : Reply Response :=
  apiRequest tr s
    { method := "post", url := url, params := JSValue.undefined, data := data, headers := [] }

/-- The call `api.put(url, data)`. -/
def apiPut (tr : Transport) (s : State) (url : String) (data : Body) : Reply Response :=
  apiRequest tr s
    { method := "put", url := url, params := JSValue.undefined, data := data, headers := [] }

/-- The expression `(await r).data`. -/
def dataOf (r : Reply Response) : Reply JSValue :=
  { state := r.state, sent := r.sent, result := r.result.map Response.data }

/-- A header list as a JavaScript object. -/
def headersValue (hs : List (String × String)) : JSValue :=
  JSValue.obj (hs.map (fun e => (e.1, JSValue.str e.2)))

/-- A request body as a JavaScript value. -/
def Body.toValue : Body → JSValue
  | .none => JSValue.undefined
  | .json v => v
  | .form fields => JSValue.obj fields

/-- A configuration as a JavaScript object. -/
def Config.toValue (c : Config) : JSValue :=
  JSValue.obj [("method", JSValue.str c.method), ("url", JSValue.str c.url),
    ("params", c.params), ("data", c.data.toValue), ("headers", headersValue c.headers)]

/-- The response object as a caller sees it: the envelope, with the body
under `data`. -/
def Response.toValue (r : Response) : JSValue :=
  JSValue.obj [("data", r.data), ("status", JSValue.num (JSNumber.ofNat r.status)),
    ("statusText", JSValue.str r.statusText), ("headers", headersValue r.headers),
    ("config", r.config.toValue)]

/-- The expression `await r` used as the returned value: the response object. -/
def envelopeOf (r : Reply Response) : Reply JSValue :=
  { state := r.state, sent := r.sent, result := r.result.map Response.toValue }

/-- A default value: `dflt` takes the place of `undefined` only. -/
def orDefault (v dflt : JSValue) : JSValue :=
  match v with
  | JSValue.undefined => dflt
  | w => w

/-- A property of a destructured argument with its default: the argument
defaults to `{}` when `undefined`, the property to `dflt` when `undefined`. -/
def field (arg : JSValue) (k : String) (dflt : JSValue) : Except JSError JSValue :=
  match getMember (orDefault arg (JSValue.obj [])) k with
  | .error e => .error e
  | .ok v => .ok (orDefault v dflt)

/-- A number literal. -/
def lit (n : Nat) : JSValue := JSValue.num (JSNumber.ofNat n)

/-- A rejected promise that sent nothing. -/
def rejected {α : Type} (s : State) (e : JSError) : Reply α :=
  { state := s, sent := [], result := .error e }

/-! ## Auth API -/

/-- Source function `login`, lines 58-63. -/
def login (tr : Transport) (s : State) (username password : JSValue) : Reply JSValue :=
  let r := apiPost tr s "/api/auth/login"
    (.json (JSValue.obj [("username", username), ("password", password)]))
  match r.result with
  | .error e => { state := r.state, sent := r.sent, result := .error e }
  | .ok res =>
    match getMember res.data "token", getMember res.data "username",
      getMember res.data "roles" with
    | .ok tk, .ok u, .ok roles =>
      { state := setToken r.state tk, sent := r.sent,
        result := .ok (JSValue.obj [("token", tk), ("username", u), ("roles", roles)]) }
    | _, _, _ => { state := r.state, sent := r.sent, result := .error .typeError }

/-- Source function `getSession`, line 65. -/
def getSession (tr : Transport) (s : State) : Reply JSValue :=
  dataOf (apiGet tr s "/api/auth/me" JSValue.undefined)

/-! ## Posts API -/

/-- Source function `fetchPosts`, lines 71-73. -/
def fetchPosts (tr : Transport) (s : State) (arg : JSValue) : Reply JSValue :=
  match field arg "page" (lit 0), field arg "size" (lit 5), field arg "q" (JSValue.str ""),
    field arg "language" JSValue.undefined with
  | .ok page, .ok size, .ok q, .ok language =>
    dataOf (apiGet tr s "/api/posts"
      (JSValue.obj [("page", page), ("size", size), ("q", q), ("language", language)]))
  | _, _, _, _ => rejected s .typeError

/-- The object `params` built on lines 76-77. -/
def categoryParams (page size category language : JSValue) : JSValue :=
  let params := [("page", page), ("size", size), ("category", category)]
  if language.strictEqStr "en" then JSValue.obj (JSValue.define "lang" (JSValue.str "en") params)
  else JSValue.obj params

/-- Source function `fetchPostsByCategory`, lines 75-79. -/
def fetchPostsByCategory (tr : Transport) (s : State) (arg : JSValue) : Reply JSValue :=
  match field arg "page" (lit 0), field arg "size" (lit 10),
    field arg "category" JSValue.undefined, field arg "language" JSValue.undefined with
  | .ok page, .ok size, .ok category, .ok language =>
    dataOf (apiGet tr s "/api/posts" (categoryParams page size category language))
  | _, _, _, _ => rejected s .typeError

/-- Source function `getPost`, line 81. -/
def getPost (tr : Transport) (s : State) (id : JSValue) : Reply JSValue :=
  dataOf (apiGet tr s ("/api/posts/" ++ id.toStr) JSValue.undefined)

/-- Source function `getAbout`, lines 83-84. -/
def getAbout (tr : Transport) (s : State) (lang : JSValue) : Reply JSValue :=
  dataOf (apiGet tr s "/api/posts/about" (JSValue.obj [("lang", lang)]))

/-- Source function `createPost`, lines 171-172. -/
def createPost (tr : Transport) (s : State) (payload : JSValue) : Reply JSValue :=
  dataOf (apiPost tr s "/api/posts" (.json payload))

/-- Source function `updatePost`, lines 174-175. -/
def updatePost (tr : Transport) (s : State) (id payload : JSValue) : Reply JSValue :=
  dataOf (apiPut tr s ("/api/posts/" ++ id.toStr) (.json payload))

/-- Source function `deletePost`, lines 177-178. -/
def deletePost (tr : Transport) (s : State) (id : JSValue) : Reply JSValue :=
  envelopeOf (apiDelete tr s ("/api/posts/" ++ id.toStr) .none)

/-! ## Images API -/

/-- Source function `fetchImages`, lines 90-92. -/
def fetchImages (tr : Transport) (s : State) (arg : JSValue) : Reply JSValue :=
  match field arg "ethnic" JSValue.undefined, field arg "search" (JSValue.str ""),
    field arg "language" JSValue.undefined, field arg "page" (lit 0),
    field arg "size" (lit 10) with
  | .ok ethnic, .ok search, .ok language, .ok page, .ok size =>
    dataOf (apiGet tr s "/api/images"
      (JSValue.obj [("ethnic", ethnic), ("search", search), ("language", language),
        ("page", page), ("size", size)]))
  | _, _, _, _, _ => rejected s .typeError

/-- Source function `getImage`, line 94. -/
def getImage (tr : Transport) (s : State) (id : JSValue) : Reply JSValue :=
  dataOf (apiGet tr s ("/api/images/" ++ id.toStr) JSValue.undefined)

/-- Source function `updateImage`, lines 96-97. -/
def updateImage (tr : Transport) (s : State) (id payload : JSValue) : Reply JSValue :=
  dataOf (apiPut tr s ("/api/images/" ++ id.toStr) (.json payload))

/-- Source function `deleteImage`, line 99. -/
def deleteImage (tr : Transport) (s : State) (id : JSValue) : Reply JSValue :=
  dataOf (apiDelete tr s ("/api/images/" ++ id.toStr) .none)

/-- Source function `deleteImagesBulk`, lines 101-102. -/
def deleteImagesBulk (tr : Transport) (s : State) (ids : JSValue) : Reply JSValue :=
  dataOf (apiDelete tr s "/api/images/bulk" (.json ids))

/-- Source function `uploadImage`, lines 104-108. -/
def uploadImage (tr : Transport) (s : State) (file : JSValue) : Reply JSValue :=
  dataOf (apiPost tr s "/api/images/upload" (.form [("file", file)]))

/-! ## Google Drive listings, home and news -/

/-- The parameters `{ page, size }` of a paginated listing. -/
def pageParams (tr : Transport) (s : State) (url : String) (arg : JSValue) : Reply JSValue :=
  match field arg "page" (lit 0), field arg "size" (lit 10) with
  | .ok page, .ok size => dataOf (apiGet tr s url (JSValue.obj [("page", page), ("size", size)]))
  | _, _ => rejected s .typeError

/-- Source function `get3dImages`, lines 114-115. -/
def get3dImages (tr : Transport) (s : State) (arg : JSValue) : Reply JSValue :=
  pageParams tr s "/api/ggdrive/3d-images" arg

/-- Source function `get360Images`, lines 117-118. -/
def get360Images (tr : Transport) (s : State) (arg : JSValue) : Reply JSValue :=
  pageParams tr s "/api/ggdrive/360-images" arg

/-- Source function `getListVideoMp4`, lines 120-121. -/
def getListVideoMp4 (tr : Transport) (s : State) (arg : JSValue) : Reply JSValue :=
  pageParams tr s "/api/videos" arg

/-- Source function `getHome`, lines 127-130. -/
def getHome (tr : Transport) (s : State) (language : JSValue) : Reply JSValue :=
  dataOf (apiGet tr s "/api/posts/home"
    (JSValue.obj [("lang", orDefault language (JSValue.str "vi"))]))

/-- Source function `getNews`, lines 132-137. -/
def getNews (tr : Transport) (s : State) (language : JSValue) : Reply JSValue :=
  dataOf (apiGet tr s "/api/posts"
    (JSValue.obj [("page", lit 0), ("size", lit 4),
      ("language", orDefault language (JSValue.str "vi"))]))

/-! ## Admin users API -/

/-- Source function `adminCreateManager`, lines 153-154. -/
def adminCreateManager (tr : Transport) (s : State) (payload : JSValue) : Reply JSValue :=
  dataOf (apiPost tr s "/api/admin/users" (.json payload))

/-- Source function `adminUpdateManager`, lines 156-157. -/
def adminUpdateManager (tr : Transport) (s : State) (id payload : JSValue) : Reply JSValue :=
  dataOf (apiPut tr s ("/api/admin/users/" ++ id.toStr) (.json payload))

/-- Source function `adminDeleteUser`, lines 159-160. -/
def adminDeleteUser (tr : Transport) (s : State) (id : JSValue) : Reply JSValue :=
  envelopeOf (apiDelete tr s ("/api/admin/users/" ++ id.toStr) .none)

/-- Source function `adminListUsers`, lines 162-163. -/
def adminListUsers (tr : Transport) (s : State) (arg : JSValue) : Reply JSValue :=
  match field arg "page" (lit 0), field arg "size" (lit 10), field arg "q" (JSValue.str "") with
  | .ok page, .ok size, .ok q =>
    dataOf (apiGet tr s "/api/admin/users"
      (JSValue.obj [("page", page), ("size", size), ("q", q)]))
  | _, _, _ => rejected s .typeError

/-- Source function `adminGetUser`, lines 165-166. -/
def adminGetUser (tr : Transport) (s : State) (id : JSValue) : Reply JSValue :=
  dataOf (apiGet tr s ("/api/admin/users/" ++ id.toStr) JSValue.undefined)

/-! ## Clips API -/

/-- Source function `updateClip`, lines 183-184. -/
def updateClip (tr : Transport) (s : State) (id payload : JSValue) : Reply JSValue :=
  dataOf (apiPut tr s ("/api/clips/" ++ id.toStr) (.json payload))

/-- Source function `deleteClip`, lines 186-187. -/
def deleteClip (tr : Transport) (s : State) (id : JSValue) : Reply JSValue :=
  envelopeOf (apiDelete tr s ("/api/clips/" ++ id.toStr) .none)

/-- Source function `fetchClips`, lines 189-190. -/
def fetchClips (tr : Transport) (s : State) (arg : JSValue) : Reply JSValue :=
  pageParams tr s "/api/clips" arg

/-- Source function `uploadClip`, lines 191-195. -/
def uploadClip (tr : Transport) (s : State) (file : JSValue) : Reply JSValue :=
  dataOf (apiPost tr s "/api/clips/upload" (.form [("file", file)]))

/-! ## User profile and YouTube playlist -/

/-- Source function `getMe`, lines 200-201. -/
def getMe (tr : Transport) (s : State) : Reply JSValue :=
  dataOf (apiGet tr s "/api/users/profile" JSValue.undefined)

/-- Source function `updateMe`, lines 203-204. -/
def updateMe (tr : Transport) (s : State) (payload : JSValue) : Reply JSValue :=
  dataOf (apiPut tr s "/api/users/profile" (.json payload))

/-- Source function `getFromU2bePlaylist`, lines 209-214. -/
def getFromU2bePlaylist (tr : Transport) (s : State) (arg : JSValue) : Reply JSValue :=
  match field arg "playlistId" JSValue.undefined, field arg "page" (lit 0),
    field arg "size" (lit 10) with
  | .ok playlistId, .ok page, .ok size =>
    dataOf (apiGet tr s "/api/u2be/playlist"
      (JSValue.obj [("playlistId", playlistId), ("page", page), ("size", size)]))
  | _, _, _ => rejected s .typeError

/-! ## The images cache -/

/-- The call `k.startsWith(pre)`. -/
def startsWith (k pre : String) : Bool := pre.data.isPrefixOf k.data

/-- The body of the `try` block of `invalidateImagesCache`, lines 141-144. -/
def invalidateImagesCacheTry (s : State) (ethnic : JSValue) : Except JSError State :=
  let pre := "images_" ++ (JSValue.or ethnic (JSValue.str "")).toStr
  let matching := s.storage.keys.filter (fun k => startsWith k pre)
  .ok { s with storage := matching.foldl (fun st k => Storage.removeItem st k) s.storage }

/-- Source function `invalidateImagesCache`, lines 139-148; the `catch` logs a warning and
returns normally. -/
def invalidateImagesCache (s : State) (ethnic : JSValue) : Reply Unit :=
  match invalidateImagesCacheTry s ethnic with
  | .ok s1 => { state := s1, sent := [], result := .ok () }
  | .error _ => { state := s, sent := [], result := .ok () }

/-! ## Token consistency -/

/-- The module token mirrors the store: it is the stored `token` when the
key is present and the empty string when it is absent. -/
def TokenConsistent (s : State) : Prop :=
  s.token = JSValue.str ((s.storage.getItem "token").getD "")

/-- A transport whose successful replies carry a string token, or none
(any truthy `token` in a reply body is a string). -/
def StringTokens (tr : Transport) : Prop :=
  ∀ (cfg : Config) (resp : Response) (tk : JSValue),
    tr cfg = Except.ok resp → getMember resp.data "token" = Except.ok tk →
    tk.truthy = true → ∃ t : String, tk = JSValue.str t

/-- The states the module reaches from its load by its own operations:
`setToken` with a string, `clearAuthData`, `login` against a server that
replies with string tokens, the handler of a failed response, any request
through the instance `api`, and `invalidateImagesCache`. -/
inductive Reachable : State → Prop where
  | load (storage : Storage) (href : String) : Reachable (moduleLoad storage href)
  | setToken {s : State} (x : String) : Reachable s → Reachable (setToken s (JSValue.str x))
  | clearAuthData {s : State} : Reachable s → Reachable (clearAuthData s)
  | login {s : State} (tr : Transport) (username password : JSValue) :
      Reachable s → StringTokens tr → Reachable (login tr s username password).state
  | rejected {s : State} (error : JSError) : Reachable s → Reachable (responseRejected s error).1
  | request {s : State} (tr : Transport) (cfg : Config) :
      Reachable s → Reachable (apiRequest tr s cfg).state
  | invalidate {s : State} (ethnic : JSValue) :
      Reachable s → Reachable (invalidateImagesCache s ethnic).state

/-! ## Lemmas on the store -/

namespace Storage

theorem getItem_setItem_same (st : Storage) (k v : String) :
    getItem (setItem st k v) k = some v := by
  induction st with
  | nil => simp [setItem, getItem]
  | cons e r ih =>
    obtain ⟨k', v'⟩ := e
    by_cases h : k' = k
    · simp [setItem, getItem, h]
    · simp [setItem, getItem, h, ih]

theorem getItem_setItem_ne (st : Storage) (k v k' : String) (h : k' ≠ k) :
    getItem (setItem st k v) k' = getItem st k' := by
  induction st with
  | nil => simp [setItem, getItem, Ne.symm h]
  | cons e r ih =>
    obtain ⟨k1, v1⟩ := e
    by_cases h1 : k1 = k
    · subst h1
      simp [setItem, getItem, Ne.symm h]
    · by_cases h2 : k1 = k'
      · subst h2
        simp [setItem, getItem, h1]
      · simp [setItem, getItem, h1, h2, ih]

theorem getItem_removeItem_same (st : Storage) (k : String) :
    getItem (removeItem st k) k = none := by
  induction st with
  | nil => simp [removeItem, getItem]
  | cons e r ih =>
    obtain ⟨k1, v1⟩ := e
    by_cases h1 : k1 = k
    · simpa [removeItem, h1] using ih
    · simpa [removeItem, List.filter_cons, h1, getItem] using ih

theorem getItem_removeItem_ne (st : Storage) (k k' : String) (h : k' ≠ k) :
    getItem (removeItem st k) k' = getItem st k' := by
  induction st with
  | nil => simp [removeItem, getItem]
  | cons e r ih =>
    obtain ⟨k1, v1⟩ := e
    by_cases h1 : k1 = k
    · subst h1
      simpa [removeItem, getItem, Ne.symm h] using ih
    · by_cases h2 : k1 = k'
      · subst h2
        simp [removeItem, List.filter_cons, h1, getItem]
      · simpa [removeItem, List.filter_cons, h1, getItem, h2] using ih

theorem removeItem_removeItem (st : Storage) (k : String) :
    removeItem (removeItem st k) k = removeItem st k := by
  simp [removeItem, List.filter_filter]

theorem removeItem_comm (st : Storage) (k k' : String) :
    removeItem (removeItem st k) k' = removeItem (removeItem st k') k := by
  simp [removeItem, List.filter_filter, Bool.and_comm]

theorem getItem_eq_none_of_not_mem (st : Storage) (k : String) (h : k ∉ keys st) :
    getItem st k = none := by
  induction st with
  | nil => simp [getItem]
  | cons e r ih =>
    obtain ⟨k1, v1⟩ := e
    simp [keys] at h
    have h1 : k1 ≠ k := fun hk => h.1 hk.symm
    simp [getItem, h1]
    apply ih
    simpa [keys] using h.2

end Storage

theorem setToken_falsy_storage (s : State) (x : JSValue) (h : x.truthy = false) :
    setToken s x = { s with token := JSValue.str "", storage := s.storage.removeItem "token" } := by
  simp [setToken, JSValue.or, h]

theorem clearAuthData_eq (s : State) :
    clearAuthData s =
      { storage := ((s.storage.removeItem "token").removeItem "username").removeItem "roles"
        token := JSValue.str ""
        href := s.href } := by
  simp [clearAuthData, setToken, JSValue.or, JSValue.truthy, Storage.removeItem, List.filter_filter]
  congr 1
  funext a
  by_cases h : a.1 = "token" <;> simp [h]

/-! ## Token management -/

theorem setToken_truthy (s : State) (x : JSValue) (h : x.truthy = true) :
    (setToken s x).token = x ∧ (setToken s x).storage.getItem "token" = some x.toStr := by
  simp [setToken, JSValue.or, h, Storage.getItem_setItem_same]

theorem setToken_falsy (s : State) (x : JSValue) (h : x.truthy = false) :
    (setToken s x).token = JSValue.str "" ∧ (setToken s x).storage.getItem "token" = none := by
  simp [setToken, JSValue.or, h, Storage.getItem_removeItem_same]

theorem setToken_string (s : State) (v : String) (hv : v ≠ "") :
    (setToken s (JSValue.str v)).token = JSValue.str v ∧
    (setToken s (JSValue.str v)).storage.getItem "token" = some v := by
  have := setToken_truthy s (JSValue.str v) (by simp [JSValue.truthy, hv])
  simpa [JSValue.toStr] using this

theorem setToken_other_keys (s : State) (x : JSValue) (k : String) (hk : k ≠ "token") :
    (setToken s x).storage.getItem k = s.storage.getItem k := by
  by_cases h : x.truthy = true
  · simp [setToken, h, Storage.getItem_setItem_ne _ _ _ _ hk]
  · simp [setToken, h, Storage.getItem_removeItem_ne _ _ _ hk]

theorem setToken_href (s : State) (x : JSValue) : (setToken s x).href = s.href := by
  by_cases h : x.truthy = true <;> simp [setToken, h]

/-- C2. After `setToken(x)`: for a truthy `x` the module variable is `x` and
the key `token` of the store reads the string of `x`, which is `x` itself
for a non-empty string; for a falsy `x` (the empty string, `null`,
`undefined`, ...) the key is absent and the module variable is the empty
string. No other key and not the location is touched. -/
theorem setToken_spec (s : State) (x : JSValue) :
    (x.truthy = true →
      (setToken s x).token = x ∧ (setToken s x).storage.getItem "token" = some x.toStr) ∧
    (∀ v : String, x = JSValue.str v → v ≠ "" →
      (setToken s x).token = JSValue.str v ∧ (setToken s x).storage.getItem "token" = some v) ∧
    (x.truthy = false →
      (setToken s x).token = JSValue.str "" ∧ (setToken s x).storage.getItem "token" = none) ∧
    ((x = JSValue.str "" ∨ x = JSValue.null ∨ x = JSValue.undefined) →
      (setToken s x).token = JSValue.str "" ∧ (setToken s x).storage.getItem "token" = none) ∧
    (∀ k : String, k ≠ "token" →
      (setToken s x).storage.getItem k = s.storage.getItem k) ∧
    (setToken s x).href = s.href := by
  refine ⟨setToken_truthy s x, ?_, setToken_falsy s x, ?_, setToken_other_keys s x,
    setToken_href s x⟩
  · intro v hx hv
    subst hx
    exact setToken_string s v hv
  · rintro (h | h | h) <;> subst h <;> exact setToken_falsy s _ (by simp [JSValue.truthy])

/-- Witness of C2: storing `abc` over an older token, and clearing with `null`. -/
theorem setToken_spec_witness :
    (setToken ⟨[("token", "old"), ("username", "alice")], JSValue.str "old", "/cms"⟩
        (JSValue.str "abc")).storage.getItem "token" = some "abc" ∧
    (setToken ⟨[("token", "old"), ("username", "alice")], JSValue.str "old", "/cms"⟩
        JSValue.null).storage.getItem "token" = none :=
  ⟨((setToken_spec ⟨[("token", "old"), ("username", "alice")], JSValue.str "old", "/cms"⟩
      (JSValue.str "abc")).2.1 "abc" rfl (by decide)).2,
   ((setToken_spec ⟨[("token", "old"), ("username", "alice")], JSValue.str "old", "/cms"⟩
      JSValue.null).2.2.1 rfl).2⟩

theorem clearAuthData_cleared (s : State) :
    (clearAuthData s).storage.getItem "token" = none ∧
    (clearAuthData s).storage.getItem "username" = none ∧
    (clearAuthData s).storage.getItem "roles" = none ∧
    (clearAuthData s).token = JSValue.str "" := by
  refine ⟨?_, ?_, ?_, ?_⟩
  · rw [clearAuthData_eq]
    simp only
    rw [Storage.getItem_removeItem_ne _ _ _ (by decide),
      Storage.getItem_removeItem_ne _ _ _ (by decide), Storage.getItem_removeItem_same]
  · rw [clearAuthData_eq]
    simp only
    rw [Storage.getItem_removeItem_ne _ _ _ (by decide), Storage.getItem_removeItem_same]
  · rw [clearAuthData_eq]
    simp only
    rw [Storage.getItem_removeItem_same]
  · rw [clearAuthData_eq]

/-- C3. After `clearAuthData()` the keys `token`, `username` and `roles` are
absent from the store and the module variable is the empty string, whatever
the state was; running it a second time changes nothing. -/
theorem clearAuthData_spec (s : State) :
    (clearAuthData s).storage.getItem "token" = none ∧
    (clearAuthData s).storage.getItem "username" = none ∧
    (clearAuthData s).storage.getItem "roles" = none ∧
    (clearAuthData s).token = JSValue.str "" ∧
    clearAuthData (clearAuthData s) = clearAuthData s := by
  have hc := clearAuthData_cleared s
  refine ⟨hc.1, hc.2.1, hc.2.2.1, hc.2.2.2, ?_⟩
  rw [clearAuthData_eq, clearAuthData_eq]
  simp only [Storage.removeItem, List.filter_filter, State.mk.injEq, and_true]
  congr 1
  funext a
  by_cases h1 : a.1 = "roles" <;> by_cases h2 : a.1 = "username" <;>
    by_cases h3 : a.1 = "token" <;> simp [h1, h2, h3]

/-! ## The interceptors -/

theorem getHeader_setHeader_same (hs : List (String × String)) (k v : String) :
    getHeader (setHeader hs k v) k = some v := by
  induction hs with
  | nil => simp [setHeader, getHeader]
  | cons e r ih =>
    obtain ⟨k1, v1⟩ := e
    by_cases h : k1 = k
    · simp [setHeader, getHeader, h]
    · simp [setHeader, getHeader, h, ih]

theorem getHeader_setHeader_ne (hs : List (String × String)) (k v k' : String) (h : k' ≠ k) :
    getHeader (setHeader hs k v) k' = getHeader hs k' := by
  induction hs with
  | nil => simp [setHeader, getHeader, Ne.symm h]
  | cons e r ih =>
    obtain ⟨k1, v1⟩ := e
    by_cases h1 : k1 = k
    · subst h1
      simp [setHeader, getHeader, Ne.symm h]
    · by_cases h2 : k1 = k'
      · subst h2
        simp [setHeader, getHeader, h1]
      · simp [setHeader, getHeader, h1, h2, ih]

theorem requestInterceptor_string (s : State) (cfg : Config) (t : String)
    (ht : s.token = JSValue.str t) (hne : t ≠ "") :
    getHeader (requestInterceptor s cfg).headers "Authorization" = some ("Bearer " ++ t) := by
  have h : s.token.truthy = true := by simp [ht, JSValue.truthy, hne]
  have ht2 : s.token.toStr = t := by simp [ht, JSValue.toStr]
  simp [requestInterceptor, h, getHeader_setHeader_same, ht2]

theorem requestInterceptor_falsy (s : State) (cfg : Config) (h : s.token.truthy = false) :
    requestInterceptor s cfg = cfg := by
  simp [requestInterceptor, h]

theorem responseRejected_snd (s : State) (error : JSError) :
    (responseRejected s error).2 = Except.error error := by
  unfold responseRejected
  split <;> rfl

/-- C4, as stated, fails: with an empty module token the interceptor returns
the configuration as it came, so a configuration that already has an
`Authorization` header still carries it. -/
theorem requestInterceptor_keeps_existing_header :
    (State.mk [] (JSValue.str "") "/").token.truthy = false ∧
    getHeader (requestInterceptor (State.mk [] (JSValue.str "") "/")
      { method := "get", url := "/api/posts", params := JSValue.undefined, data := Body.none,
        headers := [("Authorization", "Bearer stale")] }).headers "Authorization"
      = some "Bearer stale" := by
  decide

/-- C4, amended. With a non-empty module token the configuration returned
by the request interceptor has header `Authorization` equal to `Bearer `
followed by the token, and every other header and field as before; with an
empty token the configuration is returned as it came, hence without an
`Authorization` header when it had none. -/
theorem requestInterceptor_spec (s : State) (cfg : Config) :
    (s.token.truthy = true →
      getHeader (requestInterceptor s cfg).headers "Authorization"
          = some ("Bearer " ++ s.token.toStr) ∧
      (∀ k : String, k ≠ "Authorization" →
        getHeader (requestInterceptor s cfg).headers k = getHeader cfg.headers k) ∧
      (requestInterceptor s cfg).method = cfg.method ∧
      (requestInterceptor s cfg).url = cfg.url ∧
      (requestInterceptor s cfg).params = cfg.params ∧
      (requestInterceptor s cfg).data = cfg.data) ∧
    (∀ t : String, s.token = JSValue.str t → t ≠ "" →
      getHeader (requestInterceptor s cfg).headers "Authorization" = some ("Bearer " ++ t)) ∧
    (s.token.truthy = false → requestInterceptor s cfg = cfg) ∧
    (s.token.truthy = false → getHeader cfg.headers "Authorization" = none →
      getHeader (requestInterceptor s cfg).headers "Authorization" = none) := by
  refine ⟨?_, ?_, ?_, ?_⟩
  · intro h
    simp [requestInterceptor, h, getHeader_setHeader_same]
    intro k hk
    exact getHeader_setHeader_ne _ _ _ _ hk
  · intro t ht hne
    exact requestInterceptor_string s cfg t ht hne
  · intro h
    exact requestInterceptor_falsy s cfg h
  · intro h hc
    simpa [requestInterceptor, h] using hc

/-- Witness of C4: the token `abc` on a configuration with one other header. -/
theorem requestInterceptor_spec_witness :
    getHeader (requestInterceptor (State.mk [("token", "abc")] (JSValue.str "abc") "/")
      { method := "get", url := "/api/posts", params := JSValue.undefined, data := Body.none,
        headers := [("Accept", "application/json")] }).headers "Authorization"
      = some ("Bearer " ++ "abc") :=
  (requestInterceptor_spec (State.mk [("token", "abc")] (JSValue.str "abc") "/")
      { method := "get", url := "/api/posts", params := JSValue.undefined, data := Body.none,
        headers := [("Accept", "application/json")] }).2.1 "abc" rfl (by decide)

/-- C5. The handler of a failed response always returns a rejection with
the error it received. On status 401 or 403 the keys `token`, `username` and
`roles` are absent afterwards, the module token is empty and the location is
`/cms/login`; on any other status, and when there is no response, the state
is unchanged. A successful response is returned as it is and a request that
succeeds leaves the state unchanged. -/
theorem responseRejected_spec (s : State) (error : JSError) :
    (responseRejected s error).2 = Except.error error ∧
    ((errorStatus error = some 401 ∨ errorStatus error = some 403) →
      (responseRejected s error).1.storage.getItem "token" = none ∧
      (responseRejected s error).1.storage.getItem "username" = none ∧
      (responseRejected s error).1.storage.getItem "roles" = none ∧
      (responseRejected s error).1.token = JSValue.str "" ∧
      (responseRejected s error).1.href = "/cms/login") ∧
    ((errorStatus error ≠ some 401 ∧ errorStatus error ≠ some 403) →
      (responseRejected s error).1 = s) ∧
    (errorStatus error = none → (responseRejected s error).1 = s) ∧
    (∀ r : Response, responseFulfilled r = r) ∧
    (∀ (tr : Transport) (cfg : Config) (r : Response),
      tr (requestInterceptor s cfg) = Except.ok r →
      (apiRequest tr s cfg).state = s ∧ (apiRequest tr s cfg).result = Except.ok r) ∧
    (∀ (tr : Transport) (cfg : Config),
      tr (requestInterceptor s cfg) = Except.error error →
      (apiRequest tr s cfg).state = (responseRejected s error).1 ∧
      (apiRequest tr s cfg).result = Except.error error) := by
  have h2 : (responseRejected s error).2 = Except.error error := responseRejected_snd s error
  refine ⟨h2, ?_, ?_, ?_, ?_, ?_, ?_⟩
  · intro h
    have hc := clearAuthData_cleared s
    have hr : (responseRejected s error).1 = { clearAuthData s with href := "/cms/login" } := by
      simp [responseRejected, h]
    rw [hr]
    exact ⟨hc.1, hc.2.1, hc.2.2.1, hc.2.2.2, rfl⟩
  · intro h
    simp [responseRejected, h.1, h.2]
  · intro h
    simp [responseRejected, h]
  · intro r
    rfl
  · intro tr cfg r h
    simp [apiRequest, h, responseFulfilled]
  · intro tr cfg h
    simp [apiRequest, h, h2]

/-- Witness of C5: a 401 reply while a session is stored. -/
theorem responseRejected_spec_witness :
    (responseRejected (State.mk [("token", "abc"), ("roles", "ADMIN")] (JSValue.str "abc") "/cms/posts")
      (JSError.axiosError "Request failed with status code 401"
        (some { data := JSValue.null, status := 401, statusText := "Unauthorized", headers := [],
                config := { method := "get", url := "/api/posts", params := JSValue.undefined,
                            data := Body.none, headers := [] } }))).1.href = "/cms/login" :=
  ((responseRejected_spec (State.mk [("token", "abc"), ("roles", "ADMIN")] (JSValue.str "abc") "/cms/posts")
      (JSError.axiosError "Request failed with status code 401"
        (some { data := JSValue.null, status := 401, statusText := "Unauthorized", headers := [],
                config := { method := "get", url := "/api/posts", params := JSValue.undefined,
                            data := Body.none, headers := [] } }))).2.1 (Or.inl rfl)).2.2.2.2

/-! ## The nesting bound of `jsonParse` -/

theorem skipWs_length_le (cs : List Char) : (skipWs cs).length ≤ cs.length := by
  induction cs with
  | nil => simp [skipWs]
  | cons c r ih =>
    unfold skipWs
    split
    · exact Nat.le_succ_of_le ih
    · exact Nat.le_refl _

theorem parseString_length_aux (n : Nat) : ∀ (cs : List Char) (acc : List Nat) (s : String)
    (r : List Char), cs.length = n → parseString cs acc = some (s, r) → r.length < cs.length := by
  induction n using Nat.strong_induction_on with
  | _ n ih =>
    intro cs acc s r hn h
    subst hn
    unfold parseString at h
    split at h
    · simp at h
    · rename_i c rest acc1
      split at h
      · simp at h
        simp [h.2]
      · split at h
        · split at h
          · split at h
            · have := ih _ (by simp only [List.length_cons]; omega) _ _ _ _ rfl h
              simp at this ⊢
              omega
            · simp at h
          · repeat' split at h
            all_goals try (exact absurd h (by simp))
            all_goals
              have hlen := ih _ (by simp only [List.length_cons]; omega) _ _ _ _ rfl h
              simp at hlen ⊢
              omega
          · simp at h
        · split at h
          · simp at h
          · have := ih _ (by simp only [List.length_cons]; omega) _ _ _ _ rfl h
            simp at this ⊢
            omega

theorem parseString_length (cs : List Char) (acc : List Nat) (s : String) (r : List Char)
    (h : parseString cs acc = some (s, r)) : r.length < cs.length :=
  parseString_length_aux cs.length cs acc s r rfl h

theorem takeDigits_length (cs : List Char) : (takeDigits cs).2.length ≤ cs.length := by
  induction cs with
  | nil => simp [takeDigits]
  | cons c r ih =>
    unfold takeDigits
    split
    · simp only [List.length_cons]
      omega
    · simp

theorem takeSign_length (plus : Bool) (cs : List Char) :
    (takeSign plus cs).2.length ≤ cs.length := by
  unfold takeSign
  split
  · simp
  · split
    · simp
    · split <;> simp

theorem parseExponent_length (cs : List Char) (ex : Int × List Char)
    (h : parseExponent cs = some ex) : ex.2.length ≤ cs.length := by
  unfold parseExponent at h
  split at h
  · simp at h
    simp [← h]
  · rename_i c r
    split at h
    · simp only at h
      split at h
      · simp at h
      · simp only [Option.some.injEq] at h
        rw [← h]
        have h1 := takeDigits_length (takeSign true r).2
        have h2 := takeSign_length true r
        simp only [List.length_cons]
        omega
    · simp only [Option.some.injEq] at h
      simp [← h]

theorem takeIntPart_length (cs : List Char) : (takeIntPart cs).2.length ≤ cs.length := by
  unfold takeIntPart
  split
  · simp
  · split
    · simp
    · exact takeDigits_length _

theorem takeFraction_length (cs : List Char) (fr : List Char × List Char)
    (h : takeFraction cs = some fr) : fr.2.length ≤ cs.length := by
  unfold takeFraction at h
  split at h
  · simp at h
    simp [← h]
  · rename_i c r
    split at h
    · split at h
      · simp at h
      · simp only [Option.some.injEq] at h
        rw [← h]
        have := takeDigits_length r
        simp only [List.length_cons]
        omega
    · simp only [Option.some.injEq] at h
      simp [← h]

theorem parseNumber_length (cs : List Char) (d : JSNumber) (r : List Char)
    (h : parseNumber cs = some (d, r)) : r.length ≤ cs.length := by
  unfold parseNumber at h
  simp only at h
  split at h
  · simp at h
  · split at h
    · simp at h
    · rename_i fr hfr
      split at h
      · simp at h
      · rename_i ex hex
        simp only [Option.some.injEq, Prod.mk.injEq] at h
        rw [← h.2]
        have h1 := parseExponent_length _ _ hex
        have h2 := takeFraction_length _ _ hfr
        have h3 := takeIntPart_length (takeSign false cs).2
        have h4 := takeSign_length false cs
        omega

theorem parseScalar_length (c : Char) (r : List Char) (v : JSValue) (r2 : List Char)
    (h : parseScalar c r = some (v, r2)) : r2.length ≤ r.length + 1 := by
  unfold parseScalar at h
  split at h
  · split at h
    · rename_i s r3 hs
      simp only [Option.some.injEq, Prod.mk.injEq] at h
      have := parseString_length _ _ _ _ hs
      rw [← h.2]
      omega
    · simp at h
  · split at h
    · split at h
      · rename_i d r3 hn
        simp only [Option.some.injEq, Prod.mk.injEq] at h
        have := parseNumber_length _ _ _ hn
        rw [← h.2]
        simpa using this
      · simp at h
    · split at h
      all_goals first
        | (rename_i heq
           simp only [Option.some.injEq, Prod.mk.injEq] at h
           have hl := congrArg List.length heq
           simp only [List.length_cons] at hl
           rw [← h.2]
           omega)
        | (simp at h)

theorem fuelInvariant_zero : FuelInvariant 0 := by
  refine ⟨?_, ?_, ?_⟩
  · intro cs v r h
    simp [parseValue] at h
  · intro cs acc v r h
    simp [parseElements] at h
  · intro cs acc v r h
    simp [parseMembers] at h

theorem fuelInvariant_value (f : Nat) (ih : FuelInvariant f) (cs : List Char) (v : JSValue)
    (r : List Char) (h : parseValue (f + 1) cs = some (v, r)) :
    r.length ≤ cs.length ∧
    ∀ g : Nat, 2 * (cs.length - r.length) + 1 ≤ g → parseValue g cs = some (v, r) := by
  have hws := skipWs_length_le cs
  simp only [parseValue] at h
  split at h
  · simp at h
  · rename_i c r0 hsk
    rw [hsk] at hws
    simp only [List.length_cons] at hws
    have h2 := skipWs_length_le r0
    by_cases hc1 : c = '{'
    · simp only [if_pos hc1] at h
      split at h
      · rename_i r2 hsk2
        simp only [Option.some.injEq, Prod.mk.injEq] at h
        obtain ⟨hv, hr⟩ := h
        subst hv hr
        rw [hsk2] at h2
        simp only [List.length_cons] at h2
        refine ⟨by omega, ?_⟩
        intro g hg
        obtain ⟨g1, rfl⟩ : ∃ g1, g = g1 + 1 := ⟨g - 1, by omega⟩
        simp only [parseValue, hsk, if_pos hc1, hsk2]
      · rename_i hne
        obtain ⟨hl, hg⟩ := ih.2.2 _ _ _ _ h
        refine ⟨by omega, ?_⟩
        intro g hg1
        obtain ⟨g1, rfl⟩ : ∃ g1, g = g1 + 1 := ⟨g - 1, by omega⟩
        have hm := hg g1 (by omega)
        simp only [parseValue, hsk, if_pos hc1]
        exact hm
    · simp only [if_neg hc1] at h
      by_cases hc2 : c = '['
      · simp only [if_pos hc2] at h
        split at h
        · rename_i r2 hsk2
          simp only [Option.some.injEq, Prod.mk.injEq] at h
          obtain ⟨hv, hr⟩ := h
          subst hv hr
          rw [hsk2] at h2
          simp only [List.length_cons] at h2
          refine ⟨by omega, ?_⟩
          intro g hg
          obtain ⟨g1, rfl⟩ : ∃ g1, g = g1 + 1 := ⟨g - 1, by omega⟩
          simp only [parseValue, hsk, if_neg hc1, if_pos hc2, hsk2]
        · rename_i hne
          obtain ⟨hl, hg⟩ := ih.2.1 _ _ _ _ h
          refine ⟨by omega, ?_⟩
          intro g hg1
          obtain ⟨g1, rfl⟩ : ∃ g1, g = g1 + 1 := ⟨g - 1, by omega⟩
          have hm := hg g1 (by omega)
          simp only [parseValue, hsk, if_neg hc1, if_pos hc2]
          exact hm
      · simp only [if_neg hc2] at h
        have hl := parseScalar_length _ _ _ _ h
        refine ⟨by omega, ?_⟩
        intro g hg
        obtain ⟨g1, rfl⟩ : ∃ g1, g = g1 + 1 := ⟨g - 1, by omega⟩
        simp only [parseValue, hsk, if_neg hc1, if_neg hc2]
        exact h

theorem fuelInvariant_elements (f : Nat) (ih : FuelInvariant f) (cs : List Char)
    (acc : List JSValue) (v : JSValue) (r : List Char)
    (h : parseElements (f + 1) cs acc = some (v, r)) :
    r.length + 1 ≤ cs.length ∧
    ∀ g : Nat, 2 * (cs.length - r.length) ≤ g → parseElements g cs acc = some (v, r) := by
  simp only [parseElements] at h
  split at h
  · simp at h
  · rename_i v1 r1 hv1
    obtain ⟨hl1, hg1⟩ := ih.1 _ _ _ hv1
    have hws := skipWs_length_le r1
    split at h
    · rename_i r2 hsk
      rw [hsk] at hws
      simp only [List.length_cons] at hws
      obtain ⟨hl2, hg2⟩ := ih.2.1 _ _ _ _ h
      refine ⟨by omega, ?_⟩
      intro g hg
      obtain ⟨g1, rfl⟩ : ∃ g1, g = g1 + 1 := ⟨g - 1, by omega⟩
      simp only [parseElements, hg1 g1 (by omega), hsk]
      exact hg2 g1 (by omega)
    · rename_i r2 hsk
      rw [hsk] at hws
      simp only [List.length_cons] at hws
      simp only [Option.some.injEq, Prod.mk.injEq] at h
      obtain ⟨hv, hr⟩ := h
      subst hv hr
      refine ⟨by omega, ?_⟩
      intro g hg
      obtain ⟨g1, rfl⟩ : ∃ g1, g = g1 + 1 := ⟨g - 1, by omega⟩
      simp only [parseElements, hg1 g1 (by omega), hsk]
    · simp at h

theorem fuelInvariant_members (f : Nat) (ih : FuelInvariant f) (cs : List Char)
    (acc : List (String × JSValue)) (v : JSValue) (r : List Char)
    (h : parseMembers (f + 1) cs acc = some (v, r)) :
    r.length + 1 ≤ cs.length ∧
    ∀ g : Nat, 2 * (cs.length - r.length) ≤ g → parseMembers g cs acc = some (v, r) := by
  simp only [parseMembers] at h
  have hws0 := skipWs_length_le cs
  split at h
  · rename_i r0 hsk0
    rw [hsk0] at hws0
    simp only [List.length_cons] at hws0
    split at h
    · simp at h
    · rename_i k r1 hk
      have hlk := parseString_length _ _ _ _ hk
      have hws1 := skipWs_length_le r1
      split at h
      · rename_i r2 hsk1
        rw [hsk1] at hws1
        simp only [List.length_cons] at hws1
        split at h
        · simp at h
        · rename_i v1 r3 hv1
          obtain ⟨hl1, hg1⟩ := ih.1 _ _ _ hv1
          have hws3 := skipWs_length_le r3
          split at h
          · rename_i r4 hsk3
            rw [hsk3] at hws3
            simp only [List.length_cons] at hws3
            obtain ⟨hl2, hg2⟩ := ih.2.2 _ _ _ _ h
            refine ⟨by omega, ?_⟩
            intro g hg
            obtain ⟨g1, rfl⟩ : ∃ g1, g = g1 + 1 := ⟨g - 1, by omega⟩
            simp only [parseMembers, hsk0, hk, hsk1, hg1 g1 (by omega), hsk3]
            exact hg2 g1 (by omega)
          · rename_i r4 hsk3
            rw [hsk3] at hws3
            simp only [List.length_cons] at hws3
            simp only [Option.some.injEq, Prod.mk.injEq] at h
            obtain ⟨hv, hr⟩ := h
            subst hv hr
            refine ⟨by omega, ?_⟩
            intro g hg
            obtain ⟨g1, rfl⟩ : ∃ g1, g = g1 + 1 := ⟨g - 1, by omega⟩
            simp only [parseMembers, hsk0, hk, hsk1, hg1 g1 (by omega), hsk3]
          · simp at h
      · simp at h
  · simp at h

theorem fuelInvariant (f : Nat) : FuelInvariant f := by
  induction f with
  | zero => exact fuelInvariant_zero
  | succ f ih =>
    exact ⟨fuelInvariant_value f ih, fuelInvariant_elements f ih, fuelInvariant_members f ih⟩

/-- The bound inside `jsonParse` is enough: whenever some bound on the
nesting lets `parseValue` read a value from a text, the bound `2 * length + 2`
reads the same value and leaves the same rest. -/
theorem parseValue_bound_enough (f : Nat) (cs : List Char) (v : JSValue) (r : List Char)
    (h : parseValue f cs = some (v, r)) :
    parseValue (2 * cs.length + 2) cs = some (v, r) := by
  obtain ⟨_, hg⟩ := (fuelInvariant f).1 cs v r h
  exact hg _ (by omega)

/-- The result of `JSON.parse` in terms of any sufficient bound: a text that
`parseValue` reads completely with some bound is parsed to that value. -/
theorem jsonParse_of_parseValue (f : Nat) (text : String) (v : JSValue) (r : List Char)
    (h : parseValue f text.data = some (v, r)) (hr : skipWs r = []) :
    jsonParse text = Except.ok v := by
  have hb := parseValue_bound_enough f text.data v r h
  unfold jsonParse
  rw [hb]
  simp [hr]

/-! ## Numbers -/

/-- The bound of `log2F` is enough from `n` on: the result is the binary
logarithm of `n`, rounded down. -/
theorem log2F_eq_log (f n : Nat) (h : n ≤ f) : JSNumber.log2F f n = Nat.log 2 n := by
  induction f generalizing n with
  | zero =>
    have hn : n = 0 := Nat.le_zero.mp h
    subst hn
    simp [JSNumber.log2F]
  | succ f ih =>
    unfold JSNumber.log2F
    by_cases h2 : n < 2
    · simp [h2, Nat.log_of_lt h2]
    · have hge : 2 ≤ n := not_lt.mp h2
      have hd : n / 2 ≤ f := by omega
      rw [if_neg h2, ih (n / 2) hd, Nat.log_of_one_lt_of_le (by decide) hge]

theorem roundHalfEven_one (x : Nat) : JSNumber.roundHalfEven x 1 = x := by
  simp [JSNumber.roundHalfEven, Nat.mod_one]

/-- Natural numbers below `2 ^ 53` are binary64 numbers: `ofNat` keeps their
value. -/
theorem ofNat_exact (n : Nat) (h : n < 2 ^ 53) :
    ∃ (m : Nat) (e : Int), JSNumber.ofNat n = JSNumber.fin false m e ∧
      JSNumber.finValue false m e = (n : ℚ) := by
  by_cases hn : n = 0
  · subst hn
    exact ⟨0, -1074, by simp [JSNumber.ofNat, JSNumber.roundRatio], by simp [JSNumber.finValue]⟩
  · have hl : 2 ^ Nat.log 2 n ≤ n := Nat.pow_log_le_self 2 hn
    have hl52 : Nat.log 2 n < 53 := by
      have : 2 ^ Nat.log 2 n < 2 ^ 53 := lt_of_le_of_lt hl h
      exact (Nat.pow_lt_pow_iff_right (by decide)).mp this
    have hlog1 : JSNumber.log2F 1 1 = 0 := by simp [JSNumber.log2F]
    have hge : JSNumber.geTwoPow n 1 (Nat.log 2 n : Int) = true := by
      simp [JSNumber.geTwoPow, hl]
    have hlt : n < 2 ^ (Nat.log 2 n + 1) := Nat.lt_pow_succ_log_self (by decide) n
    have hmul : n * 2 ^ (52 - Nat.log 2 n) < 2 ^ 53 := by
      calc n * 2 ^ (52 - Nat.log 2 n) < 2 ^ (Nat.log 2 n + 1) * 2 ^ (52 - Nat.log 2 n) :=
            Nat.mul_lt_mul_of_pos_right hlt (by positivity)
        _ = 2 ^ 53 := by rw [← pow_add]; congr 1; omega
    refine ⟨n * 2 ^ (52 - Nat.log 2 n), (Nat.log 2 n : Int) - 52, ?_, ?_⟩
    · unfold JSNumber.ofNat JSNumber.roundRatio
      simp only [if_neg hn, log2F_eq_log n n le_rfl, hlog1, Nat.cast_zero, sub_zero, hge, if_true]
      have he : max ((Nat.log 2 n : Int) - 52) (-1074) = (Nat.log 2 n : Int) - 52 := by omega
      rw [he]
      by_cases h52 : Nat.log 2 n = 52
      · rw [h52] at hmul ⊢
        have hne : ¬ n = 9007199254740992 := by omega
        simp [roundHalfEven_one, hne]
      · have hneg : ¬ (0 : Int) ≤ (Nat.log 2 n : Int) - 52 := by omega
        have htn : (-((Nat.log 2 n : Int) - 52)).toNat = 52 - Nat.log 2 n := by omega
        simp only [hneg, if_false, htn, roundHalfEven_one]
        have hne : n * 2 ^ (52 - Nat.log 2 n) ≠ 2 ^ 53 := by omega
        simp only [if_neg hne]
        have : ¬ (971 : Int) < (Nat.log 2 n : Int) - 52 := by omega
        simp only [if_neg this]
    · simp only [JSNumber.finValue, Bool.false_eq_true, if_false, one_mul, Nat.cast_mul,
        Nat.cast_pow, Nat.cast_ofNat]
      rw [mul_assoc, ← zpow_natCast, ← zpow_add₀ (by norm_num)]
      have : ((52 - Nat.log 2 n : Nat) : Int) + ((Nat.log 2 n : Int) - 52) = 0 := by omega
      rw [this]
      simp

/-! ## Token validity -/

theorem gtNat_fin_iff (neg : Bool) (m : Nat) (e : Int) (k : Nat) :
    (JSNumber.fin neg m e).gtNat k = true ↔ (k : ℚ) < JSNumber.finValue neg m e := by
  cases neg with
  | true =>
    have hp : (0 : ℚ) ≤ (m : ℚ) * (2 : ℚ) ^ e := by positivity
    have hk : (0 : ℚ) ≤ (k : ℚ) := by positivity
    simp only [JSNumber.gtNat, JSNumber.finValue, if_true, Bool.false_eq_true, false_iff, not_lt]
    linarith
  | false =>
    simp only [JSNumber.gtNat, JSNumber.finValue, Bool.false_eq_true, if_false, one_mul]
    by_cases he : 0 ≤ e
    · obtain ⟨n, rfl⟩ := Int.eq_ofNat_of_zero_le he
      simp only [he, if_true, decide_eq_true_eq, Int.toNat_ofNat, zpow_natCast]
      constructor
      · intro h
        have : ((k : Nat) : ℚ) < ((m * 2 ^ n : Nat) : ℚ) := by exact_mod_cast h
        simpa using this
      · intro h
        have : ((k : Nat) : ℚ) < ((m * 2 ^ n : Nat) : ℚ) := by simpa using h
        exact_mod_cast this
    · have hneg : e < 0 := not_le.mp he
      obtain ⟨n, hn⟩ : ∃ n : Nat, e = -(n : Int) := ⟨(-e).toNat, by omega⟩
      subst hn
      have hpos : (0 : ℚ) < (2 : ℚ) ^ n := by positivity
      simp only [he, if_false, decide_eq_true_eq, neg_neg, Int.toNat_ofNat, zpow_neg,
        zpow_natCast]
      rw [← div_eq_mul_inv, lt_div_iff₀ hpos]
      constructor
      · intro h
        have : ((k * 2 ^ n : Nat) : ℚ) < ((m : Nat) : ℚ) := by exact_mod_cast h
        simpa using this
      · intro h
        have : ((k * 2 ^ n : Nat) : ℚ) < ((m : Nat) : ℚ) := by simpa using h
        exact_mod_cast this

theorem atob_undefined : atob "undefined" = Except.error JSError.invalidCharacterError := by
  rfl

theorem isTokenValid_of_try (s : State) (nowMs : Nat) (tok : String)
    (h : s.storage.getItem "token" = some tok) (hne : tok ≠ "") :
    isTokenValid s nowMs =
      match isTokenValidTry tok nowMs with
      | .ok b => .ok b
      | .error _ => .ok false := by
  simp [isTokenValid, h, optStr, JSValue.truthy, hne, JSValue.toStr]

theorem isTokenValid_decoded (s : State) (nowMs : Nat) (tok text : String)
    (payload exp : JSValue) (h : s.storage.getItem "token" = some tok) (hne : tok ≠ "")
    (ha : atob (segment tok).toStr = Except.ok text)
    (hj : jsonParse text = Except.ok payload)
    (hm : getMember payload "exp" = Except.ok exp) :
    isTokenValid s nowMs = Except.ok (gtNat exp (nowMs / 1000)) := by
  rw [isTokenValid_of_try s nowMs tok h hne]
  simp [isTokenValidTry, ha, hj, hm]

theorem isTokenValid_empty (s : State) (nowMs : Nat)
    (h : s.storage.getItem "token" = some "") : isTokenValid s nowMs = Except.ok false := by
  simp [isTokenValid, h, optStr, JSValue.truthy]

/-- C1. `isTokenValid` never throws. It returns true for a stored token
whose second dot-separated segment decodes (base64, then JSON) to a value
with a numeric `exp` strictly greater than the current time in whole
seconds, `exp` being the binary64 number that `JSON.parse` yields. It
returns false when the token is absent or empty, when the token has no
second segment, when the segment is not base64, when the decoded text is not
JSON, when the value has no `exp`, and when `exp` is a number less than or
equal to the current time in seconds. Whenever the segment decodes, the
result is the comparison `payload.exp > floor(now / 1000)`, which for a whole number `exp` below
`2 ^ 53` is the comparison of the integers. -/
theorem isTokenValid_spec (s : State) (nowMs : Nat) :
    (∃ b : Bool, isTokenValid s nowMs = Except.ok b) ∧
    (∀ (tok text : String) (payload : JSValue) (neg : Bool) (m : Nat) (e : Int),
      s.storage.getItem "token" = some tok → tok ≠ "" →
      atob (segment tok).toStr = Except.ok text →
      jsonParse text = Except.ok payload →
      getMember payload "exp" = Except.ok (JSValue.num (JSNumber.fin neg m e)) →
      ((nowMs / 1000 : Nat) : ℚ) < JSNumber.finValue neg m e →
      isTokenValid s nowMs = Except.ok true) ∧
    (∀ (tok text : String) (payload : JSValue),
      s.storage.getItem "token" = some tok → tok ≠ "" →
      atob (segment tok).toStr = Except.ok text →
      jsonParse text = Except.ok payload →
      getMember payload "exp" = Except.ok (JSValue.num (JSNumber.inf false)) →
      isTokenValid s nowMs = Except.ok true) ∧
    (s.storage.getItem "token" = none → isTokenValid s nowMs = Except.ok false) ∧
    (s.storage.getItem "token" = some "" → isTokenValid s nowMs = Except.ok false) ∧
    (∀ tok : String, s.storage.getItem "token" = some tok →
      segment tok = JSValue.undefined → isTokenValid s nowMs = Except.ok false) ∧
    (∀ (tok : String) (e : JSError), s.storage.getItem "token" = some tok →
      atob (segment tok).toStr = Except.error e → isTokenValid s nowMs = Except.ok false) ∧
    (∀ (tok text : String) (e : JSError), s.storage.getItem "token" = some tok →
      atob (segment tok).toStr = Except.ok text →
      jsonParse text = Except.error e → isTokenValid s nowMs = Except.ok false) ∧
    (∀ (tok text : String) (payload : JSValue), s.storage.getItem "token" = some tok →
      atob (segment tok).toStr = Except.ok text →
      jsonParse text = Except.ok payload →
      (getMember payload "exp" = Except.ok JSValue.undefined ∨
        ∃ e, getMember payload "exp" = Except.error e) →
      isTokenValid s nowMs = Except.ok false) ∧
    (∀ (tok text : String) (payload : JSValue) (neg : Bool) (m : Nat) (e : Int),
      s.storage.getItem "token" = some tok →
      atob (segment tok).toStr = Except.ok text →
      jsonParse text = Except.ok payload →
      getMember payload "exp" = Except.ok (JSValue.num (JSNumber.fin neg m e)) →
      JSNumber.finValue neg m e ≤ ((nowMs / 1000 : Nat) : ℚ) →
      isTokenValid s nowMs = Except.ok false) ∧
    (∀ (tok text : String) (payload exp : JSValue),
      s.storage.getItem "token" = some tok → tok ≠ "" →
      atob (segment tok).toStr = Except.ok text →
      jsonParse text = Except.ok payload →
      getMember payload "exp" = Except.ok exp →
      isTokenValid s nowMs = Except.ok (gtNat exp (nowMs / 1000))) ∧
    (∀ (tok text : String) (payload : JSValue) (n : Nat),
      s.storage.getItem "token" = some tok → tok ≠ "" →
      atob (segment tok).toStr = Except.ok text →
      jsonParse text = Except.ok payload →
      getMember payload "exp" = Except.ok (lit n) → n < 2 ^ 53 →
      isTokenValid s nowMs = Except.ok (decide (nowMs / 1000 < n))) := by
  have hempty := isTokenValid_empty s nowMs
  have hatob : ∀ (tok : String) (e : JSError), s.storage.getItem "token" = some tok →
      atob (segment tok).toStr = Except.error e → isTokenValid s nowMs = Except.ok false := by
    intro tok e h ha
    by_cases hne : tok = ""
    · subst hne
      exact hempty h
    · rw [isTokenValid_of_try s nowMs tok h hne]
      simp [isTokenValidTry, ha]
  refine ⟨?_, ?_, ?_, ?_, hempty, ?_, hatob, ?_, ?_, ?_, ?_, ?_⟩
  · unfold isTokenValid
    simp only
    split
    · exact ⟨false, rfl⟩
    · split
      · exact ⟨_, rfl⟩
      · exact ⟨false, rfl⟩
  · intro tok text payload neg m e h hne ha hj hm hlt
    rw [isTokenValid_decoded s nowMs tok text payload _ h hne ha hj hm]
    have hg : (JSNumber.fin neg m e).gtNat (nowMs / 1000) = true :=
      (gtNat_fin_iff neg m e _).2 hlt
    simp [gtNat, toNumber, hg]
  · intro tok text payload h hne ha hj hm
    rw [isTokenValid_decoded s nowMs tok text payload _ h hne ha hj hm]
    simp [gtNat, toNumber, JSNumber.gtNat]
  · intro h
    simp [isTokenValid, h, optStr, JSValue.truthy]
  · intro tok h hs
    apply hatob tok JSError.invalidCharacterError h
    rw [hs]
    exact atob_undefined
  · intro tok text e h ha hj
    by_cases hne : tok = ""
    · subst hne
      exact hempty h
    · rw [isTokenValid_of_try s nowMs tok h hne]
      simp [isTokenValidTry, ha, hj]
  · intro tok text payload h ha hj hm
    by_cases hne : tok = ""
    · subst hne
      exact hempty h
    · rw [isTokenValid_of_try s nowMs tok h hne]
      rcases hm with hm | ⟨e, hm⟩
      · simp [isTokenValidTry, ha, hj, hm, gtNat, toNumber, JSNumber.gtNat]
      · simp [isTokenValidTry, ha, hj, hm]
  · intro tok text payload neg m e h ha hj hm hle
    by_cases hne : tok = ""
    · subst hne
      exact hempty h
    · rw [isTokenValid_decoded s nowMs tok text payload _ h hne ha hj hm]
      have hg : (JSNumber.fin neg m e).gtNat (nowMs / 1000) = false := by
        rw [← Bool.not_eq_true, gtNat_fin_iff]
        exact not_lt.mpr hle
      simp [gtNat, toNumber, hg]
  · intro tok text payload exp h hne ha hj hm
    exact isTokenValid_decoded s nowMs tok text payload exp h hne ha hj hm
  · intro tok text payload n h hne ha hj hm hn
    rw [isTokenValid_decoded s nowMs tok text payload _ h hne ha hj hm]
    obtain ⟨m, e, hrep, hval⟩ := ofNat_exact n hn
    have hb : gtNat (lit n) (nowMs / 1000) = decide (nowMs / 1000 < n) := by
      simp only [gtNat, toNumber, lit, hrep]
      rw [Bool.eq_iff_iff, gtNat_fin_iff, hval]
      simp
    rw [hb]

/-- Witness of C1, at four stored tokens. The payload with `sub` alice and
`exp` 1700000001, padded with `=`, is valid at 1700000000999 ms and expired
at 1700000001000 ms. The payload with `exp` written 1700000000.00000000001
holds the number 1700000000 and is expired at 1700000000000 ms. The payload
whose `exp` is the string 9999999999 is valid. A token without a dot is not. -/
theorem isTokenValid_spec_witness :
    isTokenValid
      (State.mk [("token", "h.eyJzdWIiOiJhbGljZSIsImV4cCI6MTcwMDAwMDAwMX0=.s")]
        (JSValue.str "") "/") 1700000000999 = Except.ok true ∧
    isTokenValid
      (State.mk [("token", "h.eyJzdWIiOiJhbGljZSIsImV4cCI6MTcwMDAwMDAwMX0=.s")]
        (JSValue.str "") "/") 1700000001000 = Except.ok false ∧
    isTokenValid
      (State.mk [("token", "h.eyJleHAiOjE3MDAwMDAwMDAuMDAwMDAwMDAwMDF9.s")]
        (JSValue.str "") "/") 1700000000000 = Except.ok false ∧
    isTokenValid
      (State.mk [("token", "h.eyJleHAiOiI5OTk5OTk5OTk5In0.s")]
        (JSValue.str "") "/") 1700000000000 = Except.ok true ∧
    isTokenValid
      (State.mk [("token", "eyJleHAiOjk5OTk5OTk5OTl9")]
        (JSValue.str "") "/") 1700000000000 = Except.ok false :=
  ⟨(isTokenValid_spec
      (State.mk [("token", "h.eyJzdWIiOiJhbGljZSIsImV4cCI6MTcwMDAwMDAwMX0=.s")]
        (JSValue.str "") "/") 1700000000999).2.1
      "h.eyJzdWIiOiJhbGljZSIsImV4cCI6MTcwMDAwMDAwMX0=.s"
      "\x7b\"sub\":\"alice\",\"exp\":1700000001\x7d"
      (JSValue.obj [("sub", JSValue.str "alice"),
        ("exp", JSValue.num (JSNumber.fin false 7130316804194304 (-22)))])
      false 7130316804194304 (-22)
      rfl (by decide) rfl rfl rfl (by norm_num [JSNumber.finValue]),
   (isTokenValid_spec
      (State.mk [("token", "h.eyJzdWIiOiJhbGljZSIsImV4cCI6MTcwMDAwMDAwMX0=.s")]
        (JSValue.str "") "/") 1700000001000).2.2.2.2.2.2.2.2.2.1
      "h.eyJzdWIiOiJhbGljZSIsImV4cCI6MTcwMDAwMDAwMX0=.s"
      "\x7b\"sub\":\"alice\",\"exp\":1700000001\x7d"
      (JSValue.obj [("sub", JSValue.str "alice"),
        ("exp", JSValue.num (JSNumber.fin false 7130316804194304 (-22)))])
      false 7130316804194304 (-22)
      rfl rfl rfl rfl (by norm_num [JSNumber.finValue]),
   (isTokenValid_spec
      (State.mk [("token", "h.eyJleHAiOjE3MDAwMDAwMDAuMDAwMDAwMDAwMDF9.s")]
        (JSValue.str "") "/") 1700000000000).2.2.2.2.2.2.2.2.2.1
      "h.eyJleHAiOjE3MDAwMDAwMDAuMDAwMDAwMDAwMDF9.s"
      "\x7b\"exp\":1700000000.00000000001\x7d"
      (JSValue.obj [("exp", JSValue.num (JSNumber.fin false 7130316800000000 (-22)))])
      false 7130316800000000 (-22)
      rfl rfl rfl rfl (by norm_num [JSNumber.finValue]),
   ((isTokenValid_spec
      (State.mk [("token", "h.eyJleHAiOiI5OTk5OTk5OTk5In0.s")]
        (JSValue.str "") "/") 1700000000000).2.2.2.2.2.2.2.2.2.2.1
      "h.eyJleHAiOiI5OTk5OTk5OTk5In0.s"
      "\x7b\"exp\":\"9999999999\"\x7d"
      (JSValue.obj [("exp", JSValue.str "9999999999")]) (JSValue.str "9999999999")
      rfl (by decide) rfl rfl rfl).trans rfl,
   (isTokenValid_spec
      (State.mk [("token", "eyJleHAiOjk5OTk5OTk5OTl9")]
        (JSValue.str "") "/") 1700000000000).2.2.2.2.2.1
      "eyJleHAiOjk5OTk5OTk5OTl9" rfl rfl⟩

/-! ## The images cache -/

theorem getItem_foldl_removeItem (ks : List String) (st : Storage) (k : String) :
    Storage.getItem (ks.foldl (fun st k => Storage.removeItem st k) st) k =
      if k ∈ ks then none else Storage.getItem st k := by
  induction ks generalizing st with
  | nil => simp
  | cons a r ih =>
    simp only [List.foldl_cons, ih, List.mem_cons]
    by_cases h1 : k ∈ r
    · simp [h1]
    · by_cases h2 : k = a
      · subst h2
        simp [h1, Storage.getItem_removeItem_same]
      · simp [h1, h2, Storage.getItem_removeItem_ne _ _ _ h2]

theorem keys_foldl_removeItem (ks : List String) (st : Storage) (k : String) :
    k ∈ Storage.keys (ks.foldl (fun st k => Storage.removeItem st k) st) ↔
      k ∈ Storage.keys st ∧ k ∉ ks := by
  induction ks generalizing st with
  | nil => simp
  | cons a r ih =>
    simp only [List.foldl_cons, ih, List.mem_cons, not_or]
    simp only [Storage.keys, Storage.removeItem, List.mem_map, List.mem_filter,
      decide_eq_true_eq]
    constructor
    · rintro ⟨⟨e, ⟨he, hne⟩, rfl⟩, hr⟩
      exact ⟨⟨e, he, rfl⟩, hne, hr⟩
    · rintro ⟨⟨e, he, rfl⟩, hne, hr⟩
      exact ⟨⟨e, ⟨he, hne⟩, rfl⟩, hr⟩

theorem invalidateImagesCache_state (s : State) (A : String) :
    invalidateImagesCache s (JSValue.str A) =
      { state := { s with storage :=
                    ((s.storage.keys.filter (fun k => startsWith k ("images_" ++ A))).foldl
                      (fun st k => Storage.removeItem st k) s.storage) }
        sent := []
        result := Except.ok () } := by
  have h : (JSValue.or (JSValue.str A) (JSValue.str "")).toStr = A := by
    by_cases hA : A = ""
    · simp [JSValue.or, JSValue.truthy, hA, JSValue.toStr]
    · simp [JSValue.or, JSValue.truthy, hA, JSValue.toStr]
  simp [invalidateImagesCache, invalidateImagesCacheTry, h]

theorem startsWith_images_split (k A : String) (h : startsWith k ("images_" ++ A) = true) :
    ∃ rest : List Char, k.data = "images_".data ++ rest ∧ A.data <+: rest := by
  simp only [startsWith, String.data_append, List.isPrefixOf_iff_prefix] at h
  obtain ⟨t, ht⟩ := h
  exact ⟨A.data ++ t, by rw [← ht, List.append_assoc], List.prefix_append _ _⟩

/-- C6, as stated, fails: a key of another ethnic name whose name begins
with the given one is removed too. Clearing `Mnong` removes the key
`images_MnongGar_vi_0`, which starts with `images_MnongGar`. -/
theorem invalidateImagesCache_removes_extension :
    "MnongGar" ≠ "Mnong" ∧
    startsWith "images_MnongGar_vi_0" ("images_" ++ "MnongGar") = true ∧
    (State.mk [("images_MnongGar_vi_0", "[]")] (JSValue.str "") "/").storage.getItem
      "images_MnongGar_vi_0" = some "[]" ∧
    (invalidateImagesCache (State.mk [("images_MnongGar_vi_0", "[]")] (JSValue.str "") "/")
      (JSValue.str "Mnong")).state.storage.getItem "images_MnongGar_vi_0" = none := by
  decide

/-- C6, amended. `invalidateImagesCache(A)` completes without raising and
sends no request; afterwards no key starting with `images_A` is in the
store, and every key that does not start with `images_A` reads as before.
That covers every key starting with `images_B` when neither of `A` and `B`
is the beginning of the other. The module token and the location are
unchanged. -/
theorem invalidateImagesCache_spec (s : State) (A : String) :
    (invalidateImagesCache s (JSValue.str A)).result = Except.ok () ∧
    (invalidateImagesCache s (JSValue.str A)).sent = [] ∧
    (∀ k : String, startsWith k ("images_" ++ A) = true →
      k ∉ (invalidateImagesCache s (JSValue.str A)).state.storage.keys ∧
      (invalidateImagesCache s (JSValue.str A)).state.storage.getItem k = none) ∧
    (∀ k : String, startsWith k ("images_" ++ A) = false →
      (invalidateImagesCache s (JSValue.str A)).state.storage.getItem k = s.storage.getItem k ∧
      (k ∈ (invalidateImagesCache s (JSValue.str A)).state.storage.keys ↔ k ∈ s.storage.keys)) ∧
    (∀ (B k : String), ¬ A.data <+: B.data → ¬ B.data <+: A.data →
      startsWith k ("images_" ++ B) = true →
      (invalidateImagesCache s (JSValue.str A)).state.storage.getItem k = s.storage.getItem k) ∧
    (invalidateImagesCache s (JSValue.str A)).state.token = s.token ∧
    (invalidateImagesCache s (JSValue.str A)).state.href = s.href := by
  rw [invalidateImagesCache_state]
  have hkeep : ∀ k : String, startsWith k ("images_" ++ A) = false →
      Storage.getItem ((s.storage.keys.filter (fun k => startsWith k ("images_" ++ A))).foldl
        (fun st k => Storage.removeItem st k) s.storage) k = s.storage.getItem k := by
    intro k hk
    rw [getItem_foldl_removeItem]
    simp [List.mem_filter, hk]
  refine ⟨rfl, rfl, ?_, ?_, ?_, rfl, rfl⟩
  · intro k hk
    simp only
    constructor
    · rw [keys_foldl_removeItem]
      intro h
      exact h.2 (List.mem_filter.mpr ⟨h.1, hk⟩)
    · rw [getItem_foldl_removeItem]
      by_cases hmem : k ∈ s.storage.keys
      · simp [List.mem_filter, hk, hmem]
      · simp [List.mem_filter, hk, hmem, Storage.getItem_eq_none_of_not_mem _ _ hmem]
  · intro k hk
    simp only
    refine ⟨hkeep k hk, ?_⟩
    rw [keys_foldl_removeItem]
    simp [List.mem_filter, hk]
  · intro B k hAB hBA hk
    simp only
    apply hkeep
    by_contra hne
    have hA : startsWith k ("images_" ++ A) = true := by simpa using hne
    obtain ⟨r1, hr1, hp1⟩ := startsWith_images_split k A hA
    obtain ⟨r2, hr2, hp2⟩ := startsWith_images_split k B hk
    have : r1 = r2 := List.append_cancel_left (hr1.symm.trans hr2)
    subst this
    rcases List.prefix_or_prefix_of_prefix hp1 hp2 with h | h
    · exact hAB h
    · exact hBA h

/-- Witness of C6: clearing `Ede` keeps the entry of `Jrai`. -/
theorem invalidateImagesCache_spec_witness :
    (invalidateImagesCache
        (State.mk [("images_Ede_vi_0", "[]"), ("images_Jrai_vi_0", "[1]")] (JSValue.str "") "/")
        (JSValue.str "Ede")).state.storage.getItem "images_Jrai_vi_0" = some "[1]" ∧
    (invalidateImagesCache
        (State.mk [("images_Ede_vi_0", "[]"), ("images_Jrai_vi_0", "[1]")] (JSValue.str "") "/")
        (JSValue.str "Ede")).state.storage.getItem "images_Ede_vi_0" = none :=
  ⟨(invalidateImagesCache_spec
      (State.mk [("images_Ede_vi_0", "[]"), ("images_Jrai_vi_0", "[1]")] (JSValue.str "") "/")
      "Ede").2.2.2.2.1 "Jrai" "images_Jrai_vi_0" (by decide) (by decide) (by decide),
   ((invalidateImagesCache_spec
      (State.mk [("images_Ede_vi_0", "[]"), ("images_Jrai_vi_0", "[1]")] (JSValue.str "") "/")
      "Ede").2.2.1 "images_Ede_vi_0" (by decide)).2⟩

/-! ## Login -/

/-- C7, as stated, fails for a falsy token: when the server replies with an
empty `token`, `login` removes the persisted key instead of storing the
reply's token, so the key reads absent and not the empty string. -/
theorem login_empty_token_removes_key :
    (login
      (fun _ => Except.ok
        { data := JSValue.obj [("token", JSValue.str ""), ("username", JSValue.str "alice"),
            ("roles", JSValue.arr [JSValue.str "admin"])],
          status := 200, statusText := "OK", headers := [],
          config := { method := "post", url := "/api/auth/login", params := JSValue.undefined,
                      data := Body.none, headers := [] } })
      (State.mk [("token", "old")] (JSValue.str "old") "/cms/login")
      (JSValue.str "alice") (JSValue.str "pw")).state.storage.getItem "token" = none := by
  rfl

/-- C7, amended. When the server answers `POST /api/auth/login` with a body
that is an object, `login` sends that one request and returns exactly the
object with the body's `token`, `username` and `roles`; afterwards, if the
token is a non-empty string, the persisted key `token` and the module token
both hold it, and if the token is falsy the key is absent and the module
token is the empty string. Every other key of the store, `username` and
`roles` among them, and the location are as before. -/
theorem login_spec (tr : Transport) (s : State) (username password : JSValue)
    (resp : Response) (fields : List (String × JSValue))
    (hreply : tr (requestInterceptor s
      { method := "post", url := "/api/auth/login", params := JSValue.undefined,
        data := Body.json (JSValue.obj [("username", username), ("password", password)]),
        headers := [] }) = Except.ok resp)
    (hbody : resp.data = JSValue.obj fields) :
    (login tr s username password).result = Except.ok (JSValue.obj
      [("token", (JSValue.lookup "token" fields).getD JSValue.undefined),
       ("username", (JSValue.lookup "username" fields).getD JSValue.undefined),
       ("roles", (JSValue.lookup "roles" fields).getD JSValue.undefined)]) ∧
    (login tr s username password).sent = [requestInterceptor s
      { method := "post", url := "/api/auth/login", params := JSValue.undefined,
        data := Body.json (JSValue.obj [("username", username), ("password", password)]),
        headers := [] }] ∧
    (∀ t : String, JSValue.lookup "token" fields = some (JSValue.str t) → t ≠ "" →
      (login tr s username password).state.storage.getItem "token" = some t ∧
      (login tr s username password).state.token = JSValue.str t) ∧
    (((JSValue.lookup "token" fields).getD JSValue.undefined).truthy = false →
      (login tr s username password).state.storage.getItem "token" = none ∧
      (login tr s username password).state.token = JSValue.str "") ∧
    (∀ k : String, k ≠ "token" →
      (login tr s username password).state.storage.getItem k = s.storage.getItem k) ∧
    (login tr s username password).state.href = s.href := by
  have hstate : (login tr s username password).state =
      setToken s ((JSValue.lookup "token" fields).getD JSValue.undefined) := by
    simp [login, apiPost, apiRequest, hreply, responseFulfilled, hbody, getMember]
  refine ⟨?_, ?_, ?_, ?_, ?_, ?_⟩
  · simp [login, apiPost, apiRequest, hreply, responseFulfilled, hbody, getMember]
  · simp [login, apiPost, apiRequest, hreply, responseFulfilled, hbody, getMember]
  · intro t ht hne
    rw [hstate, ht]
    have := setToken_string s t hne
    exact ⟨this.2, this.1⟩
  · intro hf
    rw [hstate]
    have := setToken_falsy s _ hf
    exact ⟨this.2, this.1⟩
  · intro k hk
    rw [hstate]
    exact setToken_other_keys s _ k hk
  · rw [hstate]
    exact setToken_href s _

/-- Witness of C7: `login('alice','pw')` against a server that replies with
token `t1`, user `alice` and roles `['admin']`. -/
theorem login_spec_witness :
    (login
      (fun _ => Except.ok
        { data := JSValue.obj [("token", JSValue.str "t1"), ("username", JSValue.str "alice"),
            ("roles", JSValue.arr [JSValue.str "admin"])],
          status := 200, statusText := "OK", headers := [],
          config := { method := "post", url := "/api/auth/login", params := JSValue.undefined,
                      data := Body.none, headers := [] } })
      (State.mk [] (JSValue.str "") "/cms/login")
      (JSValue.str "alice") (JSValue.str "pw")).state.storage.getItem "token" = some "t1" ∧
    (login
      (fun _ => Except.ok
        { data := JSValue.obj [("token", JSValue.str "t1"), ("username", JSValue.str "alice"),
            ("roles", JSValue.arr [JSValue.str "admin"])],
          status := 200, statusText := "OK", headers := [],
          config := { method := "post", url := "/api/auth/login", params := JSValue.undefined,
                      data := Body.none, headers := [] } })
      (State.mk [] (JSValue.str "") "/cms/login")
      (JSValue.str "alice") (JSValue.str "pw")).result =
        Except.ok (JSValue.obj [("token", JSValue.str "t1"), ("username", JSValue.str "alice"),
          ("roles", JSValue.arr [JSValue.str "admin"])]) :=
  ⟨((login_spec
      (fun _ => Except.ok
        { data := JSValue.obj [("token", JSValue.str "t1"), ("username", JSValue.str "alice"),
            ("roles", JSValue.arr [JSValue.str "admin"])],
          status := 200, statusText := "OK", headers := [],
          config := { method := "post", url := "/api/auth/login", params := JSValue.undefined,
                      data := Body.none, headers := [] } })
      (State.mk [] (JSValue.str "") "/cms/login") (JSValue.str "alice") (JSValue.str "pw")
      _ _ rfl rfl).2.2.1 "t1" rfl (by decide)).1,
   (login_spec
      (fun _ => Except.ok
        { data := JSValue.obj [("token", JSValue.str "t1"), ("username", JSValue.str "alice"),
            ("roles", JSValue.arr [JSValue.str "admin"])],
          status := 200, statusText := "OK", headers := [],
          config := { method := "post", url := "/api/auth/login", params := JSValue.undefined,
                      data := Body.none, headers := [] } })
      (State.mk [] (JSValue.str "") "/cms/login") (JSValue.str "alice") (JSValue.str "pw")
      _ _ rfl rfl).1⟩

/-! ## Endpoint functions -/

theorem Response.toValue_ne_data (r : Response) : r.toValue ≠ r.data := by
  intro h
  have hs := congrArg sizeOf h
  simp [Response.toValue] at hs
  omega

theorem dataOf_apiRequest (tr : Transport) (s : State) (cfg : Config) (resp : Response)
    (h : tr (requestInterceptor s cfg) = Except.ok resp) :
    (dataOf (apiRequest tr s cfg)).result = Except.ok resp.data := by
  simp [dataOf, apiRequest, h, responseFulfilled, Except.map]

theorem envelopeOf_apiRequest (tr : Transport) (s : State) (cfg : Config) (resp : Response)
    (h : tr (requestInterceptor s cfg) = Except.ok resp) :
    (envelopeOf (apiRequest tr s cfg)).result = Except.ok resp.toValue := by
  simp [envelopeOf, apiRequest, h, responseFulfilled, Except.map]

/-- C8 does not hold of the code: on a successful `DELETE`, `deletePost`,
`deleteClip` and `adminDeleteUser` return the response object (the envelope
with the body under `data`), which is never the body itself, whereas
`deleteImage` returns the body. -/
theorem delete_returns_envelope (tr : Transport) (s : State) (id : JSValue) (resp : Response) :
    (tr (requestInterceptor s
        { method := "delete", url := "/api/posts/" ++ id.toStr, params := JSValue.undefined,
          data := Body.none, headers := [] }) = Except.ok resp →
      (deletePost tr s id).result = Except.ok resp.toValue) ∧
    (tr (requestInterceptor s
        { method := "delete", url := "/api/clips/" ++ id.toStr, params := JSValue.undefined,
          data := Body.none, headers := [] }) = Except.ok resp →
      (deleteClip tr s id).result = Except.ok resp.toValue) ∧
    (tr (requestInterceptor s
        { method := "delete", url := "/api/admin/users/" ++ id.toStr,
          params := JSValue.undefined, data := Body.none, headers := [] }) = Except.ok resp →
      (adminDeleteUser tr s id).result = Except.ok resp.toValue) ∧
    (tr (requestInterceptor s
        { method := "delete", url := "/api/images/" ++ id.toStr, params := JSValue.undefined,
          data := Body.none, headers := [] }) = Except.ok resp →
      (deleteImage tr s id).result = Except.ok resp.data) ∧
    resp.toValue ≠ resp.data ∧
    getMember resp.toValue "data" = Except.ok resp.data := by
  refine ⟨?_, ?_, ?_, ?_, Response.toValue_ne_data resp, ?_⟩
  · intro h
    exact envelopeOf_apiRequest tr s _ resp h
  · intro h
    exact envelopeOf_apiRequest tr s _ resp h
  · intro h
    exact envelopeOf_apiRequest tr s _ resp h
  · intro h
    exact dataOf_apiRequest tr s _ resp h
  · simp [Response.toValue, getMember, JSValue.lookup]

/-- Witness of C8: `deletePost(7)` answered with status 200 and the body
`{deleted: true}` returns the whole response object. -/
theorem delete_returns_envelope_witness :
    (deletePost
      (fun cfg => Except.ok
        { data := JSValue.obj [("deleted", JSValue.bool true)], status := 200,
          statusText := "OK", headers := [], config := cfg })
      (State.mk [] (JSValue.str "") "/cms") (lit 7)).result =
    Except.ok (Response.toValue
        { data := JSValue.obj [("deleted", JSValue.bool true)], status := 200,
          statusText := "OK", headers := [],
          config := { method := "delete", url := "/api/posts/7", params := JSValue.undefined,
                      data := Body.none, headers := [] } }) :=
  (delete_returns_envelope
      (fun cfg => Except.ok
        { data := JSValue.obj [("deleted", JSValue.bool true)], status := 200,
          statusText := "OK", headers := [], config := cfg })
      (State.mk [] (JSValue.str "") "/cms") (lit 7)
      { data := JSValue.obj [("deleted", JSValue.bool true)], status := 200,
        statusText := "OK", headers := [],
        config := { method := "delete", url := "/api/posts/7", params := JSValue.undefined,
                    data := Body.none, headers := [] } }).1 rfl

theorem orDefault_undefined (v : JSValue) : orDefault v JSValue.undefined = v := by
  cases v <;> rfl

theorem field_obj (fields : List (String × JSValue)) (k : String) (dflt : JSValue) :
    field (JSValue.obj fields) k dflt =
      Except.ok (orDefault ((JSValue.lookup k fields).getD JSValue.undefined) dflt) := by
  simp [field, orDefault, getMember]

/-- C9. Called with an object, `fetchPostsByCategory` sends one `GET
/api/posts` whose parameters are `page` (0 when undefined), `size` (10 when
undefined) and `category`, followed by `lang` equal to `en` when `language`
is the string `en`; for every other `language` the parameters are those
three only. -/
theorem fetchPostsByCategory_params (tr : Transport) (s : State)
    (fields : List (String × JSValue)) :
    (JSValue.lookup "language" fields = some (JSValue.str "en") →
      (fetchPostsByCategory tr s (JSValue.obj fields)).sent = [requestInterceptor s
        { method := "get", url := "/api/posts",
          params := JSValue.obj
            [("page", orDefault ((JSValue.lookup "page" fields).getD JSValue.undefined) (lit 0)),
             ("size", orDefault ((JSValue.lookup "size" fields).getD JSValue.undefined) (lit 10)),
             ("category", (JSValue.lookup "category" fields).getD JSValue.undefined),
             ("lang", JSValue.str "en")],
          data := Body.none, headers := [] }]) ∧
    (JSValue.lookup "language" fields ≠ some (JSValue.str "en") →
      (fetchPostsByCategory tr s (JSValue.obj fields)).sent = [requestInterceptor s
        { method := "get", url := "/api/posts",
          params := JSValue.obj
            [("page", orDefault ((JSValue.lookup "page" fields).getD JSValue.undefined) (lit 0)),
             ("size", orDefault ((JSValue.lookup "size" fields).getD JSValue.undefined) (lit 10)),
             ("category", (JSValue.lookup "category" fields).getD JSValue.undefined)],
          data := Body.none, headers := [] }]) ∧
    (fetchPostsByCategory tr s JSValue.undefined).sent = [requestInterceptor s
      { method := "get", url := "/api/posts",
        params := JSValue.obj
          [("page", lit 0), ("size", lit 10), ("category", JSValue.undefined)],
        data := Body.none, headers := [] }] := by
  have hsent : ∀ (u : String) (p : JSValue),
      (dataOf (apiGet tr s u p)).sent = [requestInterceptor s
        { method := "get", url := u, params := p, data := Body.none, headers := [] }] := by
    intro u p
    simp only [dataOf, apiGet, apiRequest]
    split <;> rfl
  refine ⟨?_, ?_, ?_⟩
  rotate_left 2
  · have hu : ∀ (k : String) (d : JSValue), field JSValue.undefined k d = Except.ok d := by
      intro k d
      simp [field, orDefault, getMember, JSValue.lookup]
    simp only [fetchPostsByCategory, hu, hsent]
    simp [categoryParams, JSValue.strictEqStr]
  · intro h
    simp only [fetchPostsByCategory, field_obj, hsent, h, Option.getD_some, orDefault_undefined]
    simp [categoryParams, JSValue.strictEqStr, JSValue.define]
  · intro h
    simp only [fetchPostsByCategory, field_obj, hsent, orDefault_undefined]
    have hne : ((JSValue.lookup "language" fields).getD JSValue.undefined).strictEqStr "en"
        = false := by
      cases hl : JSValue.lookup "language" fields with
      | none => simp [JSValue.strictEqStr]
      | some v =>
        cases v <;> simp [JSValue.strictEqStr]
        rename_i x
        intro hx
        exact h (by rw [hl, hx])
    simp [categoryParams, hne]

/-- Witness of C9: language `en` adds `lang`, language `vi` adds nothing. -/
theorem fetchPostsByCategory_params_witness :
    (fetchPostsByCategory (fun _ => Except.error JSError.typeError)
      (State.mk [] (JSValue.str "") "/")
      (JSValue.obj [("category", JSValue.str "news"), ("language", JSValue.str "en")])).sent =
      [{ method := "get", url := "/api/posts",
         params := JSValue.obj [("page", lit 0), ("size", lit 10),
           ("category", JSValue.str "news"), ("lang", JSValue.str "en")],
         data := Body.none, headers := [] }] ∧
    (fetchPostsByCategory (fun _ => Except.error JSError.typeError)
      (State.mk [] (JSValue.str "") "/")
      (JSValue.obj [("category", JSValue.str "news"), ("language", JSValue.str "vi")])).sent =
      [{ method := "get", url := "/api/posts",
         params := JSValue.obj [("page", lit 0), ("size", lit 10),
           ("category", JSValue.str "news")],
         data := Body.none, headers := [] }] :=
  ⟨(fetchPostsByCategory_params (fun _ => Except.error JSError.typeError)
      (State.mk [] (JSValue.str "") "/")
      [("category", JSValue.str "news"), ("language", JSValue.str "en")]).1 rfl,
   (fetchPostsByCategory_params (fun _ => Except.error JSError.typeError)
      (State.mk [] (JSValue.str "") "/")
      [("category", JSValue.str "news"), ("language", JSValue.str "vi")]).2.1
      (by simp [JSValue.lookup])⟩

/-! ## Token consistency -/

theorem tokenConsistent_of_eq (s t : State) (htok : t.token = s.token)
    (hget : t.storage.getItem "token" = s.storage.getItem "token")
    (h : TokenConsistent s) : TokenConsistent t := by
  unfold TokenConsistent at *
  rw [htok, hget, h]

theorem tokenConsistent_moduleLoad (storage : Storage) (href : String) :
    TokenConsistent (moduleLoad storage href) := by
  unfold TokenConsistent moduleLoad
  cases h : Storage.getItem storage "token" with
  | none => simp [optStr, JSValue.or, JSValue.truthy]
  | some v =>
    by_cases hv : v = ""
    · simp [optStr, JSValue.or, JSValue.truthy, hv]
    · simp [optStr, JSValue.or, JSValue.truthy, hv]

theorem tokenConsistent_setToken (s : State) (x : JSValue)
    (hx : x.truthy = true → ∃ t : String, x = JSValue.str t) :
    TokenConsistent (setToken s x) := by
  unfold TokenConsistent
  by_cases h : x.truthy = true
  · obtain ⟨t, rfl⟩ := hx h
    have ht : t ≠ "" := by simpa [JSValue.truthy] using h
    have := setToken_string s t ht
    rw [this.1, this.2]
    rfl
  · have hf : x.truthy = false := by simpa using h
    have := setToken_falsy s x hf
    rw [this.1, this.2]
    rfl

theorem tokenConsistent_clearAuthData (s : State) : TokenConsistent (clearAuthData s) := by
  unfold TokenConsistent
  have h := clearAuthData_cleared s
  rw [h.1, h.2.2.2]
  rfl

theorem tokenConsistent_responseRejected (s : State) (error : JSError)
    (h : TokenConsistent s) : TokenConsistent (responseRejected s error).1 := by
  unfold responseRejected
  split
  · exact tokenConsistent_of_eq (clearAuthData s) _ rfl rfl (tokenConsistent_clearAuthData s)
  · exact h

theorem tokenConsistent_apiRequest (tr : Transport) (s : State) (cfg : Config)
    (h : TokenConsistent s) : TokenConsistent (apiRequest tr s cfg).state := by
  unfold apiRequest
  simp only
  split
  · exact h
  · exact tokenConsistent_responseRejected s _ h

theorem tokenConsistent_login (tr : Transport) (s : State) (username password : JSValue)
    (htr : StringTokens tr) (h : TokenConsistent s) :
    TokenConsistent (login tr s username password).state := by
  unfold login apiPost
  simp only
  cases hr : tr (requestInterceptor s
      { method := "post", url := "/api/auth/login", params := JSValue.undefined,
        data := Body.json (JSValue.obj [("username", username), ("password", password)]),
        headers := [] }) with
  | error e =>
    simp only [apiRequest, hr]
    have hrej : (responseRejected s e).2 = Except.error e := responseRejected_snd s e
    rw [hrej]
    exact tokenConsistent_responseRejected s e h
  | ok res =>
    simp only [apiRequest, hr, responseFulfilled]
    cases h1 : getMember res.data "token" with
    | error e1 => exact h
    | ok tk =>
      cases h2 : getMember res.data "username" with
      | error e2 => exact h
      | ok u =>
        cases h3 : getMember res.data "roles" with
        | error e3 => exact h
        | ok roles =>
          exact tokenConsistent_setToken s tk (fun ht => htr _ res tk hr h1 ht)

theorem startsWith_token_images (x : String) : startsWith "token" ("images_" ++ x) = false := by
  have h : ("images_" ++ x).data = 'i' :: ("mages_".data ++ x.data) := by
    rw [String.data_append]
    rfl
  have h2 : "token".data = 't' :: "oken".data := rfl
  simp [startsWith, h, h2, List.isPrefixOf]

theorem tokenConsistent_invalidate (s : State) (ethnic : JSValue) (h : TokenConsistent s) :
    TokenConsistent (invalidateImagesCache s ethnic).state := by
  apply tokenConsistent_of_eq s _ _ _ h
  · simp [invalidateImagesCache, invalidateImagesCacheTry]
  · simp only [invalidateImagesCache, invalidateImagesCacheTry]
    rw [getItem_foldl_removeItem]
    simp [List.mem_filter, startsWith_token_images]

/-- C10. In every state the module reaches from its load by `setToken` with
a string, `clearAuthData`, `login` against replies with string tokens, the
handler of failed responses, requests and `invalidateImagesCache`, the
module token is the persisted `token` when that key is present and the
empty string when it is absent. So the request interceptor attaches exactly
the stored token that `isTokenValid` examines, and attaches nothing when no
token is stored. -/
theorem token_consistent (s : State) (h : Reachable s) :
    TokenConsistent s ∧
    (∀ v : String, s.storage.getItem "token" = some v → s.token = JSValue.str v) ∧
    (s.storage.getItem "token" = none → s.token = JSValue.str "") ∧
    (∀ (cfg : Config) (v : String), s.storage.getItem "token" = some v → v ≠ "" →
      getHeader (requestInterceptor s cfg).headers "Authorization" = some ("Bearer " ++ v)) ∧
    (∀ cfg : Config,
      (s.storage.getItem "token" = none ∨ s.storage.getItem "token" = some "") →
      requestInterceptor s cfg = cfg) := by
  have hc : TokenConsistent s := by
    induction h with
    | load storage href => exact tokenConsistent_moduleLoad storage href
    | setToken x _ _ => exact tokenConsistent_setToken _ _ (fun _ => ⟨x, rfl⟩)
    | clearAuthData _ _ => exact tokenConsistent_clearAuthData _
    | login tr username password _ htr ih => exact tokenConsistent_login tr _ _ _ htr ih
    | rejected error _ ih => exact tokenConsistent_responseRejected _ error ih
    | request tr cfg _ ih => exact tokenConsistent_apiRequest tr _ cfg ih
    | invalidate ethnic _ ih => exact tokenConsistent_invalidate _ ethnic ih
  have hsome : ∀ v : String, s.storage.getItem "token" = some v → s.token = JSValue.str v := by
    intro v hv
    have := hc
    unfold TokenConsistent at this
    rw [this, hv]
    rfl
  have hnone : s.storage.getItem "token" = none → s.token = JSValue.str "" := by
    intro hv
    have := hc
    unfold TokenConsistent at this
    rw [this, hv]
    rfl
  refine ⟨hc, hsome, hnone, ?_, ?_⟩
  · intro cfg v hv hne
    exact requestInterceptor_string s cfg v (hsome v hv) hne
  · intro cfg hv
    have ht : s.token = JSValue.str "" := by
      rcases hv with hv | hv
      · exact hnone hv
      · exact hsome "" hv
    exact requestInterceptor_falsy s cfg (by simp [ht, JSValue.truthy])

/-- Witness of C10: load with an old token, then `setToken('abc')`. -/
theorem token_consistent_witness :
    (setToken (moduleLoad [("token", "old")] "/") (JSValue.str "abc")).token = JSValue.str "abc" :=
  (token_consistent (setToken (moduleLoad [("token", "old")] "/") (JSValue.str "abc"))
    (Reachable.setToken "abc" (Reachable.load [("token", "old")] "/"))).2.1 "abc" rfl

/-! ## Evaluations -/

set_option maxRecDepth 8000
set_option exponentiation.threshold 2000

/-- The decoder on the test vectors of RFC 4648, without padding, with white
space, and on texts it rejects. -/
theorem atob_vectors :
    atob "" = Except.ok "" ∧ atob "Zg==" = Except.ok "f" ∧ atob "Zm8=" = Except.ok "fo" ∧
    atob "Zm9v" = Except.ok "foo" ∧ atob "Zm9vYg==" = Except.ok "foob" ∧
    atob "Zm9vYmE=" = Except.ok "fooba" ∧ atob "Zm9vYmFy" = Except.ok "foobar" ∧
    atob "Zg" = Except.ok "f" ∧ atob "Zm8" = Except.ok "fo" ∧ atob " Zm 9v\n" = Except.ok "foo" ∧
    atob "Zg=" = Except.error JSError.invalidCharacterError ∧
    atob "Z" = Except.error JSError.invalidCharacterError ∧
    atob "Zm9v=" = Except.error JSError.invalidCharacterError ∧
    atob "Zm-_" = Except.error JSError.invalidCharacterError ∧
    atob "/+8=" = Except.ok (String.mk [Char.ofNat 255, Char.ofNat 239]) := by
  refine ⟨rfl, rfl, rfl, rfl, rfl, rfl, rfl, rfl, rfl, rfl, rfl, rfl, rfl, rfl, rfl⟩

/-- Rounding to binary64: one tenth, the tie at `2 ^ 53 + 1`, the least
positive number and half of it, the greatest number and the overflow above
it. -/
theorem roundRatio_vectors :
    JSNumber.ofDecimal false 1 (-1) = JSNumber.fin false 7205759403792794 (-56) ∧
    JSNumber.ofDecimal false 9007199254740993 0 = JSNumber.fin false 4503599627370496 1 ∧
    JSNumber.ofDecimal false 5 (-324) = JSNumber.fin false 1 (-1074) ∧
    JSNumber.ofDecimal false 247 (-326) = JSNumber.fin false 0 (-1074) ∧
    JSNumber.ofDecimal false 17976931348623157 292 = JSNumber.fin false 9007199254740991 971 ∧
    JSNumber.ofDecimal false 17976931348623159 292 = JSNumber.inf false ∧
    JSNumber.ofDecimal true 25 (-1) = JSNumber.fin true 5629499534213120 (-51) ∧
    JSNumber.ofNat 1 = JSNumber.fin false 4503599627370496 (-52) := by
  refine ⟨rfl, rfl, rfl, rfl, rfl, rfl, rfl, rfl⟩

/-- The texts of numbers as `Number::toString` writes them. -/
theorem toStr_vectors :
    (JSNumber.ofNat 0).toStr = "0" ∧ (JSNumber.ofNat 42).toStr = "42" ∧
    (JSNumber.ofDecimal true 15 (-1)).toStr = "-1.5" ∧
    (JSNumber.ofDecimal false 1 (-1)).toStr = "0.1" ∧
    (JSNumber.ofDecimal false 1 21).toStr = "1e+21" ∧
    (JSNumber.ofDecimal false 1 20).toStr = "100000000000000000000" ∧
    (JSNumber.ofDecimal false 1 (-6)).toStr = "0.000001" ∧
    (JSNumber.ofDecimal false 1 (-7)).toStr = "1e-7" ∧
    (JSNumber.ofDecimal false 170000000000000000001 (-11)).toStr = "1700000000" ∧
    (JSNumber.ofDecimal true 0 0).toStr = "0" := by
  refine ⟨rfl, rfl, rfl, rfl, rfl, rfl, rfl, rfl, rfl, rfl⟩

/-- A number token is persisted as its text: `setToken(1e21)` stores `1e+21`. -/
theorem setToken_number_vector :
    (setToken (State.mk [] (JSValue.str "") "/")
      (JSValue.num (JSNumber.ofDecimal false 1 21))).storage.getItem "token" = some "1e+21" := by
  rfl

/-- The value of `exp` is the binary64 number that `JSON.parse` yields: the
payload with `exp` written 1700000000.00000000001 holds 1700000000, so the
token is expired at 1700000000000 ms and valid one second earlier. -/
theorem isTokenValid_rounding_vector :
    jsonParse "\x7b\"exp\":1700000000.00000000001\x7d" =
      jsonParse "\x7b\"exp\":1700000000\x7d" ∧
    isTokenValid
      (State.mk [("token", "h.eyJleHAiOjE3MDAwMDAwMDAuMDAwMDAwMDAwMDF9.s")] (JSValue.str "") "/")
      1700000000000 = Except.ok false ∧
    isTokenValid
      (State.mk [("token", "h.eyJleHAiOjE3MDAwMDAwMDAuMDAwMDAwMDAwMDF9.s")] (JSValue.str "") "/")
      1699999999999 = Except.ok true := by
  refine ⟨rfl, rfl, rfl⟩

/-- The check on tokens whose `exp` is not a number, or is missing, and on
tokens that do not decode, at 1700000000000 ms. -/
theorem isTokenValid_vectors :
    isTokenValid (State.mk [("token", "h.eyJleHAiOiI5OTk5OTk5OTk5In0=.s")] (JSValue.str "") "/")
      1700000000000 = Except.ok true ∧
    isTokenValid (State.mk [("token", "h.eyJleHAiOiI5OTk5OTk5OTk5In0.s")] (JSValue.str "") "/")
      1700000000000 = Except.ok true ∧
    isTokenValid (State.mk [("token", "h.eyJleHAiOm51bGx9.s")] (JSValue.str "") "/")
      1700000000000 = Except.ok false ∧
    isTokenValid (State.mk [("token", "h.eyJzdWIiOiJhbGljZSJ9.s")] (JSValue.str "") "/")
      1700000000000 = Except.ok false ∧
    isTokenValid (State.mk [("token", "h.bnVsbA==.s")] (JSValue.str "") "/")
      1700000000000 = Except.ok false ∧
    isTokenValid (State.mk [("token", "eyJleHAiOjk5OTk5OTk5OTl9")] (JSValue.str "") "/")
      1700000000000 = Except.ok false ∧
    isTokenValid (State.mk [("token", "h.eyJleHAiOjk5OTk5OTk5OTksInUiOiJhPz4ifQ.s")]
      (JSValue.str "") "/") 1700000000000 = Except.ok true ∧
    isTokenValid (State.mk [("token", "h.eyJleHAiOjE3MDAwMDAwMDB9.s")] (JSValue.str "") "/")
      1700000000999 = Except.ok false ∧
    isTokenValid (State.mk [("token", "h.eyJleHAiOjE3MDAwMDAwMDB9.s")] (JSValue.str "") "/")
      1699999999999 = Except.ok true := by
  refine ⟨rfl, rfl, rfl, rfl, rfl, rfl, rfl, rfl, rfl⟩

end Api
